import Mathlib

/-!
# Keystore request handlers (`internal/handler/handler.go`)

A verification development for the two HTTP handlers of the keystore service,
`Handler.WrapKey` and `Handler.UnwrapKey`.

The handlers are straight-line orchestration code over four collaborators
(`auth`, `kms`, `db`, `encryption`).  Each handler is embedded as a program
that issues collaborator calls one at a time and continues with the answer it
receives; running a program against an oracle (any stateful environment that
answers the calls) yields the HTTP response, the final environment and the
trace of calls with their answers.
-/

namespace Keystore

/-! ## Data -/

/-- Go byte slices.  Go strings and byte slices are both byte sequences and the
conversions `string(b)` and `[]byte(s)` copy the bytes unchanged, so the
embedding uses one carrier for both and the conversions are the identity. -/
abbrev Bytes := String

/-- A non-nil Go `error`, represented by its message.  The handlers only test
errors against `nil`. -/
abbrev Error := String

/-- Request body of `WrapKey` (`model.WrapKeyRequest`), fields as the handler reads them. -/
structure WrapKeyRequest where
  Token : String
  Table : String
  Column : String
  PlainKey : String
  deriving DecidableEq, Repr

/-- Request body of `UnwrapKey` (`model.UnwrapKeyRequest`). -/
structure UnwrapKeyRequest where
  Token : String
  Table : String
  Column : String
  WrappedKey : String
  deriving DecidableEq, Repr

/-- Response body of `WrapKey` (`model.WrapKeyResponse`); unset fields hold Go zero values. -/
structure WrapKeyResponse where
  Code : Int := 0
  WrappedKey : String := ""
  Error : String := ""
  deriving DecidableEq, Repr

/-- Response body of `UnwrapKey` (`model.UnwrapKeyResponse`). -/
structure UnwrapKeyResponse where
  Code : Int := 0
  PlainKey : String := ""
  Error : String := ""
  deriving DecidableEq, Repr

/-- What a handler writes to the echo context: `c.String(status, text)` or
`c.JSON(status, body)`. -/
inductive Reply (β : Type) where
  | String (status : Nat) (text : String)
  | JSON (status : Nat) (body : β)
  deriving DecidableEq, Repr

/-- HTTP status 200. -/
def StatusOK : Nat := 200
/-- HTTP status 400. -/
def StatusBadRequest : Nat := 400
/-- HTTP status 500. -/
def StatusInternalServerError : Nat := 500

/-! ## Collaborator calls -/

/-- The collaborator functions the handlers call, with their arguments. -/
inductive Call where
  | Authentication (token : String)
  | Authorization (token table column : String)
  | GetRootKey
  | GetMkiFromTableName (table : String)
  | GetWrappedMasterKeyFromMki (mki : String)
  | AddMasterKeyAndTableMapping (wrappedMasterKey table : String)
  | GenerateNewMasterKey
  | WrapMasterKey (masterKey rootKey : Bytes)
  | UnwrapMasterKey (wrappedMasterKey rootKey : Bytes)
  | WrapDataKey (dataKey masterKey : Bytes)
  | UnwrapDataKey (wrappedDataKey masterKey : Bytes)
  deriving DecidableEq, Repr

/-- Go result type of each collaborator function: a `bool`, an `error`
(`none` is `nil`), or a value together with an `error`. -/
@[reducible] def Call.Answer : Call → Type
  | .Authentication _ => Bool
  | .Authorization _ _ _ => Bool
  | .AddMasterKeyAndTableMapping _ _ => Option Error
  | _ => Bytes × Option Error

/-- One collaborator call together with the answer it got. -/
structure Event where
  call : Call
  answer : call.Answer

/-- Answers of one call can be compared. -/
instance Call.decEqAnswer : (c : Call) → DecidableEq c.Answer
  | .Authentication _ => inferInstanceAs (DecidableEq Bool)
  | .Authorization _ _ _ => inferInstanceAs (DecidableEq Bool)
  | .GetRootKey => inferInstanceAs (DecidableEq (Bytes × Option Error))
  | .GetMkiFromTableName _ => inferInstanceAs (DecidableEq (Bytes × Option Error))
  | .GetWrappedMasterKeyFromMki _ => inferInstanceAs (DecidableEq (Bytes × Option Error))
  | .AddMasterKeyAndTableMapping _ _ => inferInstanceAs (DecidableEq (Option Error))
  | .GenerateNewMasterKey => inferInstanceAs (DecidableEq (Bytes × Option Error))
  | .WrapMasterKey _ _ => inferInstanceAs (DecidableEq (Bytes × Option Error))
  | .UnwrapMasterKey _ _ => inferInstanceAs (DecidableEq (Bytes × Option Error))
  | .WrapDataKey _ _ => inferInstanceAs (DecidableEq (Bytes × Option Error))
  | .UnwrapDataKey _ _ => inferInstanceAs (DecidableEq (Bytes × Option Error))

/-- Two events of the same call are equal when their answers are. -/
def Event.decEqSameCall (c : Call) (a1 a2 : c.Answer) :
    Decidable (Event.mk c a1 = Event.mk c a2) :=
  if h : a1 = a2 then isTrue (congrArg (Event.mk c) h)
  else isFalse (fun h3 => h (by cases h3; rfl))

/-- Events can be compared: same call, same answer. -/
instance Event.decEq : DecidableEq Event
  | ⟨c1, a1⟩, ⟨c2, a2⟩ =>
    if h : c1 = c2 then by subst h; exact Event.decEqSameCall c1 a1 a2
    else isFalse (fun h3 => h (by cases h3; rfl))

/-- Programs over collaborator calls: finish with a result, or issue a call and
continue with its answer. -/
inductive Prog (ρ : Type) where
  | ret (r : ρ) : Prog ρ
  | ask (c : Call) (k : c.Answer → Prog ρ) : Prog ρ

/-- An environment with state `σ` answering every collaborator call. -/
abbrev Oracle (σ : Type) := σ → (c : Call) → c.Answer × σ

/-- Run a program to completion against an oracle: the result, the final
environment state and the trace of calls in the order they were made. -/
def Prog.run {σ ρ : Type} (o : Oracle σ) : Prog ρ → σ → ρ × σ × List Event
  | .ret r, s => (r, s, [])
  | .ask c k, s =>
    let a := o s c
    let rest := Prog.run o (k a.1) a.2
    (rest.1, rest.2.1, ⟨c, a.1⟩ :: rest.2.2)

/-! ## The handlers -/

/-- The handler `Handler.WrapKey`.  The argument is the outcome of `c.Bind(req)`: the
bound request and the binding error.  The value is what the handler writes to the echo
context before it returns. -/
def WrapKey (bind : WrapKeyRequest × Option Error) : Prog (Reply WrapKeyResponse) :=
  let req := bind.1
  if bind.2 ≠ none then
    .ret (.String StatusBadRequest "bad request")
  else
  -- 1. Authentication
  .ask (.Authentication req.Token) fun ok =>
  if !ok then
    .ret (.JSON StatusOK { Code := -1, Error := "cannot authenticate the token" })
  else
  -- 2. Authorization
  .ask (.Authorization req.Token req.Table req.Column) fun ok =>
  if !ok then
    .ret (.JSON StatusOK
      { Code := -1,
        Error := "do not have permission to access column " ++ req.Column ++
          " in table " ++ req.Table })
  else
  -- 3. Get root key from KMS
  .ask .GetRootKey fun (rootKey, err) =>
  if err ≠ none then
    .ret (.String StatusInternalServerError "internal kms error")
  else
  -- 4. Check whether the table <-> master key mapping has been registered
  .ask (.GetMkiFromTableName req.Table) fun (mki, err) =>
  if err ≠ none then
    .ret (.String StatusInternalServerError "internal database error")
  else
  -- 7. Wrap data key using the master key; 8. return it
  let wrapData (masterKey : Bytes) : Prog (Reply WrapKeyResponse) :=
    .ask (.WrapDataKey req.PlainKey masterKey) fun (wrappedDataKey, err) =>
    if err ≠ none then
      .ret (.String StatusInternalServerError "internal encryption error")
    else
      .ret (.JSON StatusOK { Code := 0, WrappedKey := wrappedDataKey })
  if mki = "" then
    -- 5.1. No existing mapping, generate a new master key
    .ask .GenerateNewMasterKey fun (masterKey, err) =>
    if err ≠ none then
      .ret (.String StatusInternalServerError "internal encryption error")
    else
    -- 5.2. Wrap new master key with the root key (the error is overwritten below, unread)
    .ask (.WrapMasterKey masterKey rootKey) fun (wrappedMasterKey, _) =>
    -- 5.3. Update the DB
    .ask (.AddMasterKeyAndTableMapping wrappedMasterKey req.Table) fun err =>
    if err ≠ none then
      .ret (.String StatusInternalServerError "internal database error")
    else
      wrapData masterKey
  else
    -- 6.1. Get wrapped master key from DB
    .ask (.GetWrappedMasterKeyFromMki mki) fun (wrappedMasterKey, err) =>
    if err ≠ none then
      .ret (.String StatusInternalServerError "internal database error")
    else
    -- 6.2. Unwrap master key using the root key
    .ask (.UnwrapMasterKey wrappedMasterKey rootKey) fun (masterKey, err) =>
    if err ≠ none then
      .ret (.String StatusInternalServerError "internal encryption/decryption error")
    else
      wrapData masterKey

/-- The handler `Handler.UnwrapKey`.  The argument is the outcome of `c.Bind(req)`. -/
def UnwrapKey (bind : UnwrapKeyRequest × Option Error) : Prog (Reply UnwrapKeyResponse) :=
  let req := bind.1
  if bind.2 ≠ none then
    .ret (.String StatusBadRequest "bad request")
  else
  -- 1. Authentication
  .ask (.Authentication req.Token) fun ok =>
  if !ok then
    .ret (.JSON StatusOK { Code := -1, Error := "cannot authenticate the token" })
  else
  -- 2. Authorization
  .ask (.Authorization req.Token req.Table req.Column) fun ok =>
  if !ok then
    .ret (.JSON StatusOK
      { Code := -1,
        Error := "do not have permission to access column " ++ req.Column ++
          " in table " ++ req.Table })
  else
  -- 3. Verify the table <-> master key mapping has been registered
  .ask (.GetMkiFromTableName req.Table) fun (mki, err) =>
  if err ≠ none then
    .ret (.String StatusInternalServerError "internal database error")
  else
  if mki = "" then
    .ret (.JSON StatusOK
      { Code := -1, Error := "table " ++ req.Table ++ " has not been registered yet" })
  else
  -- 4. Get wrapped master key from the database
  .ask (.GetWrappedMasterKeyFromMki mki) fun (wrappedMasterKey, err) =>
  if err ≠ none then
    .ret (.String StatusInternalServerError "internal database error")
  else
  -- 5. Get root key from KMS
  .ask .GetRootKey fun (rootKey, err) =>
  if err ≠ none then
    .ret (.String StatusInternalServerError "internal kms error")
  else
  -- 6. Unwrap master key using the root key
  .ask (.UnwrapMasterKey wrappedMasterKey rootKey) fun (masterKey, err) =>
  if err ≠ none then
    .ret (.String StatusInternalServerError "internal encryption/decryption error")
  else
  -- 7. Unwrap data key using the master key
  .ask (.UnwrapDataKey req.WrappedKey masterKey) fun (dataKey, err) =>
  if err ≠ none then
    .ret (.JSON StatusOK { Code := -1, Error := "provided data key cannot be unwrapped" })
  else
  -- 8. Return plain text data key to user
  .ret (.JSON StatusOK { Code := 0, PlainKey := dataKey })

/-! ## Trace vocabulary -/

/-- Calls to the access-control provider (`auth.Authentication`, `auth.Authorization`). -/
def Call.isAuth : Call → Bool
  | .Authentication _ => true
  | .Authorization _ _ _ => true
  | _ => false

/-- The registry insert (`AddMasterKeyAndTableMapping`). -/
def Call.isInsert : Call → Bool
  | .AddMasterKeyAndTableMapping _ _ => true
  | _ => false

/-- The registry fetch (`GetWrappedMasterKeyFromMki`). -/
def Call.isFetch : Call → Bool
  | .GetWrappedMasterKeyFromMki _ => true
  | _ => false

/-- The root key source (`kms.GetRootKey`). -/
def Call.isRootKey : Call → Bool
  | .GetRootKey => true
  | _ => false

/-- Generation of a new master key (`encryption.GenerateNewMasterKey`). -/
def Call.isGenerate : Call → Bool
  | .GenerateNewMasterKey => true
  | _ => false

/-- Wrap or unwrap of a caller's data key (`encryption.WrapDataKey`, `encryption.UnwrapDataKey`). -/
def Call.isDataKeyOp : Call → Bool
  | .WrapDataKey _ _ => true
  | .UnwrapDataKey _ _ => true
  | _ => false

/-- Calls to the cryptographic provider (package `encryption`). -/
def Call.isCrypto : Call → Bool
  | .GenerateNewMasterKey => true
  | .WrapMasterKey _ _ => true
  | .UnwrapMasterKey _ _ => true
  | .WrapDataKey _ _ => true
  | .UnwrapDataKey _ _ => true
  | _ => false

/-- The calls of a trace, answers dropped. -/
def calls (tr : List Event) : List Call := tr.map Event.call

/-- Reply, final environment and trace of serving one `WrapKey` request. -/
def serveWrap {σ : Type} (o : Oracle σ) (s : σ) (req : WrapKeyRequest) :
    Reply WrapKeyResponse × σ × List Event :=
  (WrapKey (req, none)).run o s

/-- Reply, final environment and trace of serving one `UnwrapKey` request. -/
def serveUnwrap {σ : Type} (o : Oracle σ) (s : σ) (req : UnwrapKeyRequest) :
    Reply UnwrapKeyResponse × σ × List Event :=
  (UnwrapKey (req, none)).run o s

/-- A request to either handler. -/
inductive Request where
  | wrap (req : WrapKeyRequest)
  | unwrap (req : UnwrapKeyRequest)
  deriving DecidableEq, Repr

/-- The reply of either handler. -/
inductive Response where
  | wrap (reply : Reply WrapKeyResponse)
  | unwrap (reply : Reply UnwrapKeyResponse)
  deriving DecidableEq, Repr

/-- Token of a request. -/
def Request.Token : Request → String
  | .wrap req => req.Token
  | .unwrap req => req.Token

/-- Table of a request. -/
def Request.Table : Request → String
  | .wrap req => req.Table
  | .unwrap req => req.Table

/-- Column of a request. -/
def Request.Column : Request → String
  | .wrap req => req.Column
  | .unwrap req => req.Column

/-- Serve one request with the handler it addresses. -/
def serve {σ : Type} (o : Oracle σ) (s : σ) : Request → Response × σ × List Event
  | .wrap req => let out := serveWrap o s req; (.wrap out.1, out.2.1, out.2.2)
  | .unwrap req => let out := serveUnwrap o s req; (.unwrap out.1, out.2.1, out.2.2)

/-! ## The key registry store -/

/-- Modelled from the spec: the record type of the Key Registry Store (package `db`,
not part of the handler's source file), `{table, masterKeyId, wrappedMasterKey}`. -/
structure MasterKeyRecord where
  table : String
  masterKeyId : String
  wrappedMasterKey : Bytes
  deriving DecidableEq, Repr

/-- Modelled from the spec: the state of the Key Registry Store, its records in
insertion order. -/
abbrev Registry := List MasterKeyRecord

/-- Modelled from the spec: the opaque master-key id the store gives to the record of
a table.  It is never empty, since the handlers read the empty id as "not registered". -/
def Registry.newMki (table : String) : String := "mki:" ++ table

/-- Modelled from the spec: `db.GetMkiFromTableName`, `lookup(table)` giving the
master-key id of the table, the empty id when the table has no record. -/
def Registry.GetMkiFromTableName (reg : Registry) (table : String) : String × Option Error :=
  match reg.find? (fun r => r.table = table) with
  | some r => (r.masterKeyId, none)
  | none => ("", none)

/-- Modelled from the spec: `db.GetWrappedMasterKeyFromMki`, `fetch(masterKeyId)`
giving the stored wrapped master key, an error for an unknown id. -/
def Registry.GetWrappedMasterKeyFromMki (reg : Registry) (mki : String) : String × Option Error :=
  match reg.find? (fun r => r.masterKeyId = mki) with
  | some r => (r.wrappedMasterKey, none)
  | none => ("", some "no master key with this id")

/-- Modelled from the spec: `db.AddMasterKeyAndTableMapping`, `insert(table, wrapped)`
with the uniqueness guarantee on `table`: a second insert for a table is answered with
a uniqueness violation and stores nothing. -/
def Registry.AddMasterKeyAndTableMapping (reg : Registry) (wrappedMasterKey table : String) :
    Option Error × Registry :=
  if reg.any (fun r => r.table = table) then
    (some "unique violation", reg)
  else
    (none, reg ++ [{ table := table, masterKeyId := Registry.newMki table,
                     wrappedMasterKey := wrappedMasterKey }])

/-- At most one master-key record per table. -/
def Registry.OnePerTable (reg : Registry) : Prop := (reg.map (fun r => r.table)).Nodup

/-- Records as the store creates them: one per table, each under the id the store
gave it. -/
def Registry.WellFormed (reg : Registry) : Prop :=
  reg.OnePerTable ∧ ∀ r ∈ reg, r.masterKeyId = Registry.newMki r.table

instance Registry.decidableOnePerTable (reg : Registry) : Decidable reg.OnePerTable :=
  inferInstanceAs (Decidable (List.Nodup (reg.map (fun r : MasterKeyRecord => r.table))))

instance Registry.decidableWellFormed (reg : Registry) : Decidable reg.WellFormed :=
  inferInstanceAs
    (Decidable (reg.OnePerTable ∧ ∀ r ∈ reg, r.masterKeyId = Registry.newMki r.table))

/-- The service's environment: the registry and the state `ext` of everything else
(access control, root key source, cryptographic provider, and the faults of the
registry's connection). -/
structure World (ε : Type) where
  reg : Registry
  ext : ε

/-- The oracle of a world.  Calls to the registry are answered by the registry model
unless the outside injects a fault (an error answer for that call), in which case the
call fails and the registry is untouched; every other call is answered by the outside. -/
def World.oracle {ε : Type} (x : Oracle ε) : Oracle (World ε) := fun w c =>
  match c with
  | .GetMkiFromTableName table =>
    let a := x w.ext (.GetMkiFromTableName table)
    match a.1.2 with
    | some e => ((a.1.1, some e), { w with ext := a.2 })
    | none => (w.reg.GetMkiFromTableName table, { w with ext := a.2 })
  | .GetWrappedMasterKeyFromMki mki =>
    let a := x w.ext (.GetWrappedMasterKeyFromMki mki)
    match a.1.2 with
    | some e => ((a.1.1, some e), { w with ext := a.2 })
    | none => (w.reg.GetWrappedMasterKeyFromMki mki, { w with ext := a.2 })
  | .AddMasterKeyAndTableMapping wrappedMasterKey table =>
    let a := x w.ext (.AddMasterKeyAndTableMapping wrappedMasterKey table)
    match a.1 with
    | some e => (some e, { w with ext := a.2 })
    | none =>
      let ins := w.reg.AddMasterKeyAndTableMapping wrappedMasterKey table
      (ins.1, { reg := ins.2, ext := a.2 })
  | .Authentication token =>
    let a := x w.ext (.Authentication token); (a.1, { w with ext := a.2 })
  | .Authorization token table column =>
    let a := x w.ext (.Authorization token table column); (a.1, { w with ext := a.2 })
  | .GetRootKey =>
    let a := x w.ext .GetRootKey; (a.1, { w with ext := a.2 })
  | .GenerateNewMasterKey =>
    let a := x w.ext .GenerateNewMasterKey; (a.1, { w with ext := a.2 })
  | .WrapMasterKey masterKey rootKey =>
    let a := x w.ext (.WrapMasterKey masterKey rootKey); (a.1, { w with ext := a.2 })
  | .UnwrapMasterKey wrappedMasterKey rootKey =>
    let a := x w.ext (.UnwrapMasterKey wrappedMasterKey rootKey); (a.1, { w with ext := a.2 })
  | .WrapDataKey dataKey masterKey =>
    let a := x w.ext (.WrapDataKey dataKey masterKey); (a.1, { w with ext := a.2 })
  | .UnwrapDataKey wrappedDataKey masterKey =>
    let a := x w.ext (.UnwrapDataKey wrappedDataKey masterKey); (a.1, { w with ext := a.2 })

/-- Serve a sequence of requests one after another, threading the environment. -/
def serveAll {σ : Type} (o : Oracle σ) (s : σ) (reqs : List Request) : σ :=
  reqs.foldl (fun st r => (serve o st r).2.1) s

/-! ## A concrete outside

A small executable environment to run the handlers on concrete requests: one known
token, a fixed root key answer, a toy key-wrapping primitive and injectable faults. -/

/-- Toy wrap: prefix the text with the key and a separator; an empty key is invalid. -/
def toyWrap (key text : Bytes) : Bytes × Option Error :=
  if key = "" then ("", some "invalid key size")
  else (String.mk (key.data ++ '|' :: text.data), none)

/-- Toy unwrap: accept only a text wrapped under the given key. -/
def toyUnwrap (key wrapped : Bytes) : Bytes × Option Error :=
  if key ≠ "" ∧ (key.data ++ ['|']).isPrefixOf wrapped.data then
    (String.mk (wrapped.data.drop (key.data.length + 1)), none)
  else ("", some "message authentication failed")

/-- State of the concrete outside: the answer of the root key source, the number of
master keys generated so far, and the calls that are made to fail. -/
structure Outside where
  rootKey : Bytes × Option Error
  seed : Nat
  fault : Call → Option Error

/-- The concrete outside: token `T1` is valid and authorized for `(orders, ssn)`. -/
def Outside.oracle : Oracle Outside := fun e c =>
  match c with
  | .Authentication token => (decide (token = "T1"), e)
  | .Authorization token table column =>
    (decide (token = "T1" ∧ table = "orders" ∧ column = "ssn"), e)
  | .GetRootKey => (e.rootKey, e)
  | .GetMkiFromTableName table => (("", e.fault (.GetMkiFromTableName table)), e)
  | .GetWrappedMasterKeyFromMki mki => (("", e.fault (.GetWrappedMasterKeyFromMki mki)), e)
  | .AddMasterKeyAndTableMapping w table => (e.fault (.AddMasterKeyAndTableMapping w table), e)
  | .GenerateNewMasterKey =>
    match e.fault .GenerateNewMasterKey with
    | some err => (("", some err), e)
    | none => ((String.mk (List.replicate (e.seed + 1) 'k'), none), { e with seed := e.seed + 1 })
  | .WrapMasterKey masterKey rootKey =>
    match e.fault (.WrapMasterKey masterKey rootKey) with
    | some err => (("", some err), e)
    | none => (toyWrap rootKey masterKey, e)
  | .UnwrapMasterKey wrappedMasterKey rootKey =>
    match e.fault (.UnwrapMasterKey wrappedMasterKey rootKey) with
    | some err => (("", some err), e)
    | none => (toyUnwrap rootKey wrappedMasterKey, e)
  | .WrapDataKey dataKey masterKey =>
    match e.fault (.WrapDataKey dataKey masterKey) with
    | some err => (("", some err), e)
    | none => (toyWrap masterKey dataKey, e)
  | .UnwrapDataKey wrappedDataKey masterKey =>
    match e.fault (.UnwrapDataKey wrappedDataKey masterKey) with
    | some err => (("", some err), e)
    | none => (toyUnwrap masterKey wrappedDataKey, e)

/-- The outside with a working root key and no faults. -/
def Outside.healthy : Outside :=
  { rootKey := ("root", none), seed := 0, fault := fun _ => none }

/-- The scenario request of the spec: wrap `123-45-6789` for `(orders, ssn)` with token `T1`. -/
def ordersWrap : WrapKeyRequest :=
  { Token := "T1", Table := "orders", Column := "ssn", PlainKey := "123-45-6789" }

/-- An unwrap request for `(orders, ssn)` with token `T1`. -/
def ordersUnwrap (wrappedKey : String) : UnwrapKeyRequest :=
  { Token := "T1", Table := "orders", Column := "ssn", WrappedKey := wrappedKey }
/-- A registry holding the `orders` record created under root key `root`. -/
def ordersRegistry : Registry :=
  [{ table := "orders", masterKeyId := "mki:orders", wrappedMasterKey := "root|k" }]

/-- The environment of a request that loses the race on the first use of a table: right
after the request's lookup, a rival request registers the looked-up table with its own
wrapped master key.  Everything else is answered as in `World.oracle`. -/
def World.racingOracle {ε : Type} (x : Oracle ε) (rivalWrappedMasterKey : Bytes) :
    Oracle (World ε) := fun w c =>
  match c, World.oracle x w c with
  | .GetMkiFromTableName table, a =>
    (a.1, { a.2 with
      reg := (a.2.reg.AddMasterKeyAndTableMapping rivalWrappedMasterKey table).2 })
  | _, a => a

/-- The outside in which the registry connection rejects every insert. -/
def Outside.insertFails : Outside :=
  { Outside.healthy with
    fault := fun c => if c.isInsert then some "connection reset" else none }

/-- The outside whose root key source hands out a root key of invalid size. -/
def Outside.badRootKey : Outside :=
  { Outside.healthy with rootKey := ("", none) }

/-- The outside in which wrapping a master key fails. -/
def Outside.wrapMasterFails : Outside :=
  { Outside.healthy with
    fault := fun c =>
      match c with
      | .WrapMasterKey _ _ => some "cipher failure"
      | _ => none }

/-! ## Registry view of a trace -/

/-- The record the store creates for a table. -/
def Registry.newRecord (wrappedMasterKey table : String) : MasterKeyRecord :=
  { table := table, masterKeyId := Registry.newMki table, wrappedMasterKey := wrappedMasterKey }

/-- Effect of one event on the registry: an insert that was answered without error
appended its record, every other event left the registry alone. -/
def Event.applyTo (reg : Registry) (ev : Event) : Registry :=
  match ev with
  | ⟨.AddMasterKeyAndTableMapping wrappedMasterKey table, none⟩ =>
    reg ++ [Registry.newRecord wrappedMasterKey table]
  | _ => reg

/-- Whether the answer of an event is the one the registry in state `reg` gives.  Only
registry calls answered without error are constrained. -/
def Event.agreesWith (reg : Registry) (ev : Event) : Prop :=
  match ev with
  | ⟨.GetMkiFromTableName table, (mki, none)⟩ => reg.GetMkiFromTableName table = (mki, none)
  | ⟨.GetWrappedMasterKeyFromMki mki, (wrapped, none)⟩ =>
    reg.GetWrappedMasterKeyFromMki mki = (wrapped, none)
  | ⟨.AddMasterKeyAndTableMapping _ table, none⟩ => reg.any (fun r => r.table = table) = false
  | _ => True

/-- A trace agrees with a registry that starts in state `reg` and evolves by the trace's
own inserts (no other request in between). -/
def agrees : Registry → List Event → Prop
  | _, [] => True
  | reg, ev :: tr => ev.agreesWith reg ∧ agrees (ev.applyTo reg) tr

/-! ## Executions and their shapes -/

/-- The relation `p.Runs tr r`: the trace `tr` is a complete execution of `p` ending with
result `r`, under whatever answers the collaborators gave. -/
inductive Prog.Runs {ρ : Type} : Prog ρ → List Event → ρ → Prop where
  | ret (r : ρ) : Prog.Runs (.ret r) [] r
  | ask (c : Call) (k : c.Answer → Prog ρ) (a : c.Answer) (tr : List Event) (r : ρ) :
      Prog.Runs (k a) tr r → Prog.Runs (.ask c k) (⟨c, a⟩ :: tr) r

/-- The two access-control events of a request that passed both checks. -/
def authorized (token table column : String) : List Event :=
  [⟨.Authentication token, true⟩, ⟨.Authorization token table column, true⟩]

/-- The executions of `WrapKey` on a bound request, one case per exit of the handler:
the reply and the exact trace of collaborator calls that leads to it. -/
inductive WrapOutcome (req : WrapKeyRequest) : Reply WrapKeyResponse → List Event → Prop where
  | unauthenticated :
      WrapOutcome req
        (.JSON StatusOK { Code := -1, Error := "cannot authenticate the token" })
        [⟨.Authentication req.Token, false⟩]
  | forbidden :
      WrapOutcome req
        (.JSON StatusOK
          { Code := -1,
            Error := "do not have permission to access column " ++ req.Column ++
              " in table " ++ req.Table })
        [⟨.Authentication req.Token, true⟩,
         ⟨.Authorization req.Token req.Table req.Column, false⟩]
  | kmsError (rootKey : Bytes) (e : Error) :
      WrapOutcome req (.String StatusInternalServerError "internal kms error")
        (authorized req.Token req.Table req.Column ++ [⟨.GetRootKey, (rootKey, some e)⟩])
  | lookupError (rootKey : Bytes) (mki : String) (e : Error) :
      WrapOutcome req (.String StatusInternalServerError "internal database error")
        (authorized req.Token req.Table req.Column ++
          [⟨.GetRootKey, (rootKey, none)⟩,
           ⟨.GetMkiFromTableName req.Table, (mki, some e)⟩])
  | generateError (rootKey masterKey : Bytes) (e : Error) :
      WrapOutcome req (.String StatusInternalServerError "internal encryption error")
        (authorized req.Token req.Table req.Column ++
          [⟨.GetRootKey, (rootKey, none)⟩,
           ⟨.GetMkiFromTableName req.Table, ("", none)⟩,
           ⟨.GenerateNewMasterKey, (masterKey, some e)⟩])
  | insertError (rootKey masterKey wrappedMasterKey : Bytes) (wrapErr : Option Error)
      (e : Error) :
      WrapOutcome req (.String StatusInternalServerError "internal database error")
        (authorized req.Token req.Table req.Column ++
          [⟨.GetRootKey, (rootKey, none)⟩,
           ⟨.GetMkiFromTableName req.Table, ("", none)⟩,
           ⟨.GenerateNewMasterKey, (masterKey, none)⟩,
           ⟨.WrapMasterKey masterKey rootKey, (wrappedMasterKey, wrapErr)⟩,
           ⟨.AddMasterKeyAndTableMapping wrappedMasterKey req.Table, some e⟩])
  | createdWrapError (rootKey masterKey wrappedMasterKey : Bytes) (wrapErr : Option Error)
      (wrappedDataKey : Bytes) (e : Error) :
      WrapOutcome req (.String StatusInternalServerError "internal encryption error")
        (authorized req.Token req.Table req.Column ++
          [⟨.GetRootKey, (rootKey, none)⟩,
           ⟨.GetMkiFromTableName req.Table, ("", none)⟩,
           ⟨.GenerateNewMasterKey, (masterKey, none)⟩,
           ⟨.WrapMasterKey masterKey rootKey, (wrappedMasterKey, wrapErr)⟩,
           ⟨.AddMasterKeyAndTableMapping wrappedMasterKey req.Table, none⟩,
           ⟨.WrapDataKey req.PlainKey masterKey, (wrappedDataKey, some e)⟩])
  | createdSuccess (rootKey masterKey wrappedMasterKey : Bytes) (wrapErr : Option Error)
      (wrappedDataKey : Bytes) :
      WrapOutcome req (.JSON StatusOK { Code := 0, WrappedKey := wrappedDataKey })
        (authorized req.Token req.Table req.Column ++
          [⟨.GetRootKey, (rootKey, none)⟩,
           ⟨.GetMkiFromTableName req.Table, ("", none)⟩,
           ⟨.GenerateNewMasterKey, (masterKey, none)⟩,
           ⟨.WrapMasterKey masterKey rootKey, (wrappedMasterKey, wrapErr)⟩,
           ⟨.AddMasterKeyAndTableMapping wrappedMasterKey req.Table, none⟩,
           ⟨.WrapDataKey req.PlainKey masterKey, (wrappedDataKey, none)⟩])
  | fetchError (rootKey : Bytes) (mki : String) (hmki : mki ≠ "")
      (wrappedMasterKey : Bytes) (e : Error) :
      WrapOutcome req (.String StatusInternalServerError "internal database error")
        (authorized req.Token req.Table req.Column ++
          [⟨.GetRootKey, (rootKey, none)⟩,
           ⟨.GetMkiFromTableName req.Table, (mki, none)⟩,
           ⟨.GetWrappedMasterKeyFromMki mki, (wrappedMasterKey, some e)⟩])
  | unwrapMasterError (rootKey : Bytes) (mki : String) (hmki : mki ≠ "")
      (wrappedMasterKey masterKey : Bytes) (e : Error) :
      WrapOutcome req
        (.String StatusInternalServerError "internal encryption/decryption error")
        (authorized req.Token req.Table req.Column ++
          [⟨.GetRootKey, (rootKey, none)⟩,
           ⟨.GetMkiFromTableName req.Table, (mki, none)⟩,
           ⟨.GetWrappedMasterKeyFromMki mki, (wrappedMasterKey, none)⟩,
           ⟨.UnwrapMasterKey wrappedMasterKey rootKey, (masterKey, some e)⟩])
  | storedWrapError (rootKey : Bytes) (mki : String) (hmki : mki ≠ "")
      (wrappedMasterKey masterKey wrappedDataKey : Bytes) (e : Error) :
      WrapOutcome req (.String StatusInternalServerError "internal encryption error")
        (authorized req.Token req.Table req.Column ++
          [⟨.GetRootKey, (rootKey, none)⟩,
           ⟨.GetMkiFromTableName req.Table, (mki, none)⟩,
           ⟨.GetWrappedMasterKeyFromMki mki, (wrappedMasterKey, none)⟩,
           ⟨.UnwrapMasterKey wrappedMasterKey rootKey, (masterKey, none)⟩,
           ⟨.WrapDataKey req.PlainKey masterKey, (wrappedDataKey, some e)⟩])
  | storedSuccess (rootKey : Bytes) (mki : String) (hmki : mki ≠ "")
      (wrappedMasterKey masterKey wrappedDataKey : Bytes) :
      WrapOutcome req (.JSON StatusOK { Code := 0, WrappedKey := wrappedDataKey })
        (authorized req.Token req.Table req.Column ++
          [⟨.GetRootKey, (rootKey, none)⟩,
           ⟨.GetMkiFromTableName req.Table, (mki, none)⟩,
           ⟨.GetWrappedMasterKeyFromMki mki, (wrappedMasterKey, none)⟩,
           ⟨.UnwrapMasterKey wrappedMasterKey rootKey, (masterKey, none)⟩,
           ⟨.WrapDataKey req.PlainKey masterKey, (wrappedDataKey, none)⟩])

/-- The executions of `UnwrapKey` on a bound request, one case per exit of the handler. -/
inductive UnwrapOutcome (req : UnwrapKeyRequest) :
    Reply UnwrapKeyResponse → List Event → Prop where
  | unauthenticated :
      UnwrapOutcome req
        (.JSON StatusOK { Code := -1, Error := "cannot authenticate the token" })
        [⟨.Authentication req.Token, false⟩]
  | forbidden :
      UnwrapOutcome req
        (.JSON StatusOK
          { Code := -1,
            Error := "do not have permission to access column " ++ req.Column ++
              " in table " ++ req.Table })
        [⟨.Authentication req.Token, true⟩,
         ⟨.Authorization req.Token req.Table req.Column, false⟩]
  | lookupError (mki : String) (e : Error) :
      UnwrapOutcome req (.String StatusInternalServerError "internal database error")
        (authorized req.Token req.Table req.Column ++
          [⟨.GetMkiFromTableName req.Table, (mki, some e)⟩])
  | notRegistered :
      UnwrapOutcome req
        (.JSON StatusOK
          { Code := -1, Error := "table " ++ req.Table ++ " has not been registered yet" })
        (authorized req.Token req.Table req.Column ++
          [⟨.GetMkiFromTableName req.Table, ("", none)⟩])
  | fetchError (mki : String) (hmki : mki ≠ "") (wrappedMasterKey : Bytes) (e : Error) :
      UnwrapOutcome req (.String StatusInternalServerError "internal database error")
        (authorized req.Token req.Table req.Column ++
          [⟨.GetMkiFromTableName req.Table, (mki, none)⟩,
           ⟨.GetWrappedMasterKeyFromMki mki, (wrappedMasterKey, some e)⟩])
  | kmsError (mki : String) (hmki : mki ≠ "") (wrappedMasterKey rootKey : Bytes) (e : Error) :
      UnwrapOutcome req (.String StatusInternalServerError "internal kms error")
        (authorized req.Token req.Table req.Column ++
          [⟨.GetMkiFromTableName req.Table, (mki, none)⟩,
           ⟨.GetWrappedMasterKeyFromMki mki, (wrappedMasterKey, none)⟩,
           ⟨.GetRootKey, (rootKey, some e)⟩])
  | unwrapMasterError (mki : String) (hmki : mki ≠ "")
      (wrappedMasterKey rootKey masterKey : Bytes) (e : Error) :
      UnwrapOutcome req
        (.String StatusInternalServerError "internal encryption/decryption error")
        (authorized req.Token req.Table req.Column ++
          [⟨.GetMkiFromTableName req.Table, (mki, none)⟩,
           ⟨.GetWrappedMasterKeyFromMki mki, (wrappedMasterKey, none)⟩,
           ⟨.GetRootKey, (rootKey, none)⟩,
           ⟨.UnwrapMasterKey wrappedMasterKey rootKey, (masterKey, some e)⟩])
  | invalidWrappedKey (mki : String) (hmki : mki ≠ "")
      (wrappedMasterKey rootKey masterKey dataKey : Bytes) (e : Error) :
      UnwrapOutcome req
        (.JSON StatusOK { Code := -1, Error := "provided data key cannot be unwrapped" })
        (authorized req.Token req.Table req.Column ++
          [⟨.GetMkiFromTableName req.Table, (mki, none)⟩,
           ⟨.GetWrappedMasterKeyFromMki mki, (wrappedMasterKey, none)⟩,
           ⟨.GetRootKey, (rootKey, none)⟩,
           ⟨.UnwrapMasterKey wrappedMasterKey rootKey, (masterKey, none)⟩,
           ⟨.UnwrapDataKey req.WrappedKey masterKey, (dataKey, some e)⟩])
  | success (mki : String) (hmki : mki ≠ "")
      (wrappedMasterKey rootKey masterKey dataKey : Bytes) :
      UnwrapOutcome req (.JSON StatusOK { Code := 0, PlainKey := dataKey })
        (authorized req.Token req.Table req.Column ++
          [⟨.GetMkiFromTableName req.Table, (mki, none)⟩,
           ⟨.GetWrappedMasterKeyFromMki mki, (wrappedMasterKey, none)⟩,
           ⟨.GetRootKey, (rootKey, none)⟩,
           ⟨.UnwrapMasterKey wrappedMasterKey rootKey, (masterKey, none)⟩,
           ⟨.UnwrapDataKey req.WrappedKey masterKey, (dataKey, none)⟩])

/-! ## Concurrent WrapKey requests

Requests in flight share one world.  A schedule picks, step by step, the request whose
next collaborator call is answered; every interleaving of the requests' collaborator
calls is a schedule. -/

/-- A WrapKey request in flight: the request, the rest of its handler run, and the
collaborator calls it has made so far with their answers. -/
structure Flight where
  req : WrapKeyRequest
  rest : Prog (Reply WrapKeyResponse)
  trace : List Event

/-- The reply of a flight, once its handler has returned. -/
def Flight.reply (f : Flight) : Option (Reply WrapKeyResponse) :=
  match f.rest with
  | .ret r => some r
  | .ask _ _ => none

/-- The requests in flight and the world they share. -/
structure Pool (ε : Type) where
  world : World ε
  flights : List Flight

/-- All requests accepted and bound, none has made a call yet. -/
def Pool.start {ε : Type} (w : World ε) (reqs : List WrapKeyRequest) : Pool ε :=
  { world := w, flights := reqs.map fun q => { req := q, rest := WrapKey (q, none), trace := [] } }

/-- Flight `i` makes its next collaborator call against the shared world.  A flight that
has returned (or an index out of range) changes nothing. -/
def Pool.step {ε : Type} (x : Oracle ε) (p : Pool ε) (i : Nat) : Pool ε :=
  match p.flights[i]? with
  | some { req := q, rest := .ask c k, trace := tr } =>
    let a := World.oracle x p.world c
    { world := a.2,
      flights := p.flights.set i { req := q, rest := k a.1, trace := tr ++ [⟨c, a.1⟩] } }
  | _ => p

/-- Run a schedule: the list of flights that make the next call, in order. -/
def Pool.run {ε : Type} (x : Oracle ε) (p : Pool ε) (schedule : List Nat) : Pool ε :=
  schedule.foldl (Pool.step x) p

/-- The replies of the flights, `none` for a flight still running. -/
def Pool.replies {ε : Type} (p : Pool ε) : List (Option (Reply WrapKeyResponse)) :=
  p.flights.map Flight.reply

/-- What an event tells about a registry that only grows: a successful insert left its
record, a lookup that returned an id saw a record of the table with that id, a successful
fetch saw a record with that id and wrapped master key. -/
def Event.witnessedBy (reg : Registry) (ev : Event) : Prop :=
  match ev with
  | ⟨.AddMasterKeyAndTableMapping wrappedMasterKey table, none⟩ =>
    Registry.newRecord wrappedMasterKey table ∈ reg
  | ⟨.GetMkiFromTableName table, (mki, none)⟩ =>
    mki ≠ "" → ∃ rec ∈ reg, rec.table = table ∧ rec.masterKeyId = mki
  | ⟨.GetWrappedMasterKeyFromMki mki, (wrapped, none)⟩ =>
    ∃ rec ∈ reg, rec.masterKeyId = mki ∧ rec.wrappedMasterKey = wrapped
  | _ => True

/-- The invariant of a pool: the registry is well-formed, every flight's trace so far,
continued by any execution of the rest of its run, is an execution of `WrapKey` on its
request, and the registry bears witness to every event of every flight. -/
structure Pool.Sound {ε : Type} (p : Pool ε) : Prop where
  wellFormed : p.world.reg.WellFormed
  runs : ∀ f ∈ p.flights, ∀ tr r, f.rest.Runs tr r →
    (WrapKey (f.req, none)).Runs (f.trace ++ tr) r
  witnessed : ∀ f ∈ p.flights, ∀ ev ∈ f.trace, ev.witnessedBy p.world.reg

/-- Two requests for `orders` lose and win the race on its first use: both look the table
up before either inserts. -/
def raceSchedule : List Nat := [0, 0, 0, 0, 1, 1, 1, 1, 0, 0, 0, 0, 1, 1, 1]

/-- A second wrap request for `(orders, ssn)`. -/
def ordersWrap2 : WrapKeyRequest :=
  { Token := "T1", Table := "orders", Column := "ssn", PlainKey := "987-65-4321" }

/-- A trace linked to the oracle: every event was answered by the world oracle in some
world, the registries of these worlds grow along the trace from `lo`, and the registry
after the last event is contained in `hi`. -/
def answeredFrom {ε : Type} (x : Oracle ε) : Registry → List Event → Registry → Prop
  | lo, [], hi => ∀ r ∈ lo, r ∈ hi
  | lo, ev :: tr, hi =>
    ∃ w : World ε, (∀ r ∈ lo, r ∈ w.reg) ∧ (World.oracle x w ev.call).1 = ev.answer ∧
      answeredFrom x (World.oracle x w ev.call).2.reg tr hi

/-- The link of a pool to the oracle: every flight's trace was answered by the world
oracle on registries growing from `start` to the current one, and every record that was
not in `start` was inserted by a flight of the pool. -/
structure Pool.Linked {ε : Type} (x : Oracle ε) (start : Registry) (p : Pool ε) : Prop where
  answered : ∀ f ∈ p.flights, answeredFrom x start f.trace p.world.reg
  provenance : ∀ rec ∈ p.world.reg, rec ∈ start ∨
    ∃ f ∈ p.flights,
      Event.mk (.AddMasterKeyAndTableMapping rec.wrappedMasterKey rec.table) none ∈ f.trace

/-- A concrete outside in working order in every state: token `T1` is valid and
authorized for `(orders, ssn)`, the root key is `root`, the registry connection injects
no fault, and the toy provider generates a new master key on every call; the state counts
the master keys generated. -/
def Outside.steady : Oracle Nat := fun n c =>
  match c with
  | .Authentication token => (decide (token = "T1"), n)
  | .Authorization token table column =>
    (decide (token = "T1" ∧ table = "orders" ∧ column = "ssn"), n)
  | .GetRootKey => (("root", none), n)
  | .GetMkiFromTableName _ => (("", none), n)
  | .GetWrappedMasterKeyFromMki _ => (("", none), n)
  | .AddMasterKeyAndTableMapping _ _ => (none, n)
  | .GenerateNewMasterKey => ((String.mk (List.replicate (n + 1) 'k'), none), n + 1)
  | .WrapMasterKey masterKey rootKey => (toyWrap rootKey masterKey, n)
  | .UnwrapMasterKey wrapped rootKey => (toyUnwrap rootKey wrapped, n)
  | .WrapDataKey dataKey masterKey =>
    ((String.mk (masterKey.data ++ '|' :: dataKey.data), none), n)
  | .UnwrapDataKey wrapped masterKey => (toyUnwrap masterKey wrapped, n)

/-! ## Comparing events

Equality of two events of the same collaborator function, spelled out on the arguments
and on the components of the answer. -/

/-- Two `Authentication` events are equal when arguments and answers are. -/
@[simp high]
theorem Event.eq_Authentication
    (token1 token2 : String)
    (b1 b2 : Bool) :
    Event.mk (.Authentication token1) b1 =
        Event.mk (.Authentication token2) b2 ↔
      token1 = token2 ∧ b1 = b2 := by
  constructor
  · intro h; cases h; simp
  · rintro ⟨rfl, rfl⟩; rfl

/-- Two `Authorization` events are equal when arguments and answers are. -/
@[simp high]
theorem Event.eq_Authorization
    (token1 table1 column1 token2 table2 column2 : String)
    (b1 b2 : Bool) :
    Event.mk (.Authorization token1 table1 column1) b1 =
        Event.mk (.Authorization token2 table2 column2) b2 ↔
      token1 = token2 ∧ table1 = table2 ∧ column1 = column2 ∧ b1 = b2 := by
  constructor
  · intro h; cases h; simp
  · rintro ⟨rfl, rfl, rfl, rfl⟩; rfl

/-- Two `GetRootKey` events are equal when arguments and answers are. -/
@[simp high]
theorem Event.eq_GetRootKey
    (v1 v2 : Bytes) (e1 e2 : Option Error) :
    Event.mk .GetRootKey (v1, e1) =
        Event.mk .GetRootKey (v2, e2) ↔
      v1 = v2 ∧ e1 = e2 := by
  constructor
  · intro h; cases h; simp
  · rintro ⟨rfl, rfl⟩; rfl

/-- Two `GetMkiFromTableName` events are equal when arguments and answers are. -/
@[simp high]
theorem Event.eq_GetMkiFromTableName
    (table1 table2 : String)
    (v1 v2 : Bytes) (e1 e2 : Option Error) :
    Event.mk (.GetMkiFromTableName table1) (v1, e1) =
        Event.mk (.GetMkiFromTableName table2) (v2, e2) ↔
      table1 = table2 ∧ v1 = v2 ∧ e1 = e2 := by
  constructor
  · intro h; cases h; simp
  · rintro ⟨rfl, rfl, rfl⟩; rfl

/-- Two `GetWrappedMasterKeyFromMki` events are equal when arguments and answers are. -/
@[simp high]
theorem Event.eq_GetWrappedMasterKeyFromMki
    (mki1 mki2 : String)
    (v1 v2 : Bytes) (e1 e2 : Option Error) :
    Event.mk (.GetWrappedMasterKeyFromMki mki1) (v1, e1) =
        Event.mk (.GetWrappedMasterKeyFromMki mki2) (v2, e2) ↔
      mki1 = mki2 ∧ v1 = v2 ∧ e1 = e2 := by
  constructor
  · intro h; cases h; simp
  · rintro ⟨rfl, rfl, rfl⟩; rfl

/-- Two `AddMasterKeyAndTableMapping` events are equal when arguments and answers are. -/
@[simp high]
theorem Event.eq_AddMasterKeyAndTableMapping
    (wrapped1 table1 wrapped2 table2 : String)
    (e1 e2 : Option Error) :
    Event.mk (.AddMasterKeyAndTableMapping wrapped1 table1) e1 =
        Event.mk (.AddMasterKeyAndTableMapping wrapped2 table2) e2 ↔
      wrapped1 = wrapped2 ∧ table1 = table2 ∧ e1 = e2 := by
  constructor
  · intro h; cases h; simp
  · rintro ⟨rfl, rfl, rfl⟩; rfl

/-- Two `GenerateNewMasterKey` events are equal when arguments and answers are. -/
@[simp high]
theorem Event.eq_GenerateNewMasterKey
    (v1 v2 : Bytes) (e1 e2 : Option Error) :
    Event.mk .GenerateNewMasterKey (v1, e1) =
        Event.mk .GenerateNewMasterKey (v2, e2) ↔
      v1 = v2 ∧ e1 = e2 := by
  constructor
  · intro h; cases h; simp
  · rintro ⟨rfl, rfl⟩; rfl

/-- Two `WrapMasterKey` events are equal when arguments and answers are. -/
@[simp high]
theorem Event.eq_WrapMasterKey
    (masterKey1 rootKey1 masterKey2 rootKey2 : String)
    (v1 v2 : Bytes) (e1 e2 : Option Error) :
    Event.mk (.WrapMasterKey masterKey1 rootKey1) (v1, e1) =
        Event.mk (.WrapMasterKey masterKey2 rootKey2) (v2, e2) ↔
      masterKey1 = masterKey2 ∧ rootKey1 = rootKey2 ∧ v1 = v2 ∧ e1 = e2 := by
  constructor
  · intro h; cases h; simp
  · rintro ⟨rfl, rfl, rfl, rfl⟩; rfl

/-- Two `UnwrapMasterKey` events are equal when arguments and answers are. -/
@[simp high]
theorem Event.eq_UnwrapMasterKey
    (wrapped1 rootKey1 wrapped2 rootKey2 : String)
    (v1 v2 : Bytes) (e1 e2 : Option Error) :
    Event.mk (.UnwrapMasterKey wrapped1 rootKey1) (v1, e1) =
        Event.mk (.UnwrapMasterKey wrapped2 rootKey2) (v2, e2) ↔
      wrapped1 = wrapped2 ∧ rootKey1 = rootKey2 ∧ v1 = v2 ∧ e1 = e2 := by
  constructor
  · intro h; cases h; simp
  · rintro ⟨rfl, rfl, rfl, rfl⟩; rfl

/-- Two `WrapDataKey` events are equal when arguments and answers are. -/
@[simp high]
theorem Event.eq_WrapDataKey
    (dataKey1 masterKey1 dataKey2 masterKey2 : String)
    (v1 v2 : Bytes) (e1 e2 : Option Error) :
    Event.mk (.WrapDataKey dataKey1 masterKey1) (v1, e1) =
        Event.mk (.WrapDataKey dataKey2 masterKey2) (v2, e2) ↔
      dataKey1 = dataKey2 ∧ masterKey1 = masterKey2 ∧ v1 = v2 ∧ e1 = e2 := by
  constructor
  · intro h; cases h; simp
  · rintro ⟨rfl, rfl, rfl, rfl⟩; rfl

/-- Two `UnwrapDataKey` events are equal when arguments and answers are. -/
@[simp high]
theorem Event.eq_UnwrapDataKey
    (wrapped1 masterKey1 wrapped2 masterKey2 : String)
    (v1 v2 : Bytes) (e1 e2 : Option Error) :
    Event.mk (.UnwrapDataKey wrapped1 masterKey1) (v1, e1) =
        Event.mk (.UnwrapDataKey wrapped2 masterKey2) (v2, e2) ↔
      wrapped1 = wrapped2 ∧ masterKey1 = masterKey2 ∧ v1 = v2 ∧ e1 = e2 := by
  constructor
  · intro h; cases h; simp
  · rintro ⟨rfl, rfl, rfl, rfl⟩; rfl

/-! ## Executions: basic facts -/

theorem Prog.runs_ret_iff {ρ : Type} (x r : ρ) (tr : List Event) :
    Prog.Runs (.ret x) tr r ↔ tr = [] ∧ r = x := by
  constructor
  · intro h; cases h; exact ⟨rfl, rfl⟩
  · rintro ⟨rfl, rfl⟩; exact .ret _

theorem Prog.runs_ask_iff {ρ : Type} (c : Call) (k : c.Answer → Prog ρ) (r : ρ)
    (tr : List Event) :
    Prog.Runs (.ask c k) tr r ↔ ∃ a tr1, tr = ⟨c, a⟩ :: tr1 ∧ Prog.Runs (k a) tr1 r := by
  constructor
  · intro h
    cases h with
    | ask _ _ a tr1 _ h1 => exact ⟨a, tr1, rfl, h1⟩
  · rintro ⟨a, tr1, rfl, h1⟩; exact .ask _ _ _ _ _ h1

/-- Running against any oracle is an execution. -/
theorem Prog.run_runs {σ ρ : Type} (o : Oracle σ) (p : Prog ρ) (s : σ) :
    Prog.Runs p (p.run o s).2.2 (p.run o s).1 := by
  induction p generalizing s with
  | ret r => exact .ret r
  | ask c k ih => exact .ask _ _ _ _ _ (ih _ _)

/-- Every execution of `WrapKey` on a bound request is one of the listed outcomes. -/
theorem wrapKey_outcome (req : WrapKeyRequest) (tr : List Event) (r : Reply WrapKeyResponse)
    (h : (WrapKey (req, none)).Runs tr r) : WrapOutcome req r tr := by
  simp only [WrapKey, ne_eq, not_true_eq_false, ↓reduceIte, Prog.runs_ask_iff] at h
  obtain ⟨ok1, tr1, rfl, h⟩ := h
  cases ok1
  · simp only [Bool.not_false, ↓reduceIte, Prog.runs_ret_iff] at h
    obtain ⟨rfl, rfl⟩ := h
    exact .unauthenticated
  simp only [Bool.not_true, Bool.false_eq_true, ↓reduceIte, Prog.runs_ask_iff] at h
  obtain ⟨ok2, tr2, rfl, h⟩ := h
  cases ok2
  · simp only [Bool.not_false, ↓reduceIte, Prog.runs_ret_iff] at h
    obtain ⟨rfl, rfl⟩ := h
    exact .forbidden
  simp only [Bool.not_true, Bool.false_eq_true, ↓reduceIte, Prog.runs_ask_iff] at h
  obtain ⟨⟨rootKey, e3⟩, tr3, rfl, h⟩ := h
  cases e3 with
  | some e =>
    simp only [not_false_eq_true, reduceCtorEq, ↓reduceIte, Prog.runs_ret_iff] at h
    obtain ⟨rfl, rfl⟩ := h
    exact .kmsError rootKey e
  | none =>
  simp only [not_true_eq_false, ↓reduceIte, Prog.runs_ask_iff] at h
  obtain ⟨⟨mki, e4⟩, tr4, rfl, h⟩ := h
  cases e4 with
  | some e =>
    simp only [not_false_eq_true, reduceCtorEq, ↓reduceIte, Prog.runs_ret_iff] at h
    obtain ⟨rfl, rfl⟩ := h
    exact .lookupError rootKey mki e
  | none =>
  simp only [not_true_eq_false, ↓reduceIte] at h
  by_cases hmki : mki = ""
  · subst hmki
    simp only [↓reduceIte, Prog.runs_ask_iff] at h
    obtain ⟨⟨masterKey, e5⟩, tr5, rfl, h⟩ := h
    cases e5 with
    | some e =>
      simp only [not_false_eq_true, reduceCtorEq, ↓reduceIte, Prog.runs_ret_iff] at h
      obtain ⟨rfl, rfl⟩ := h
      exact .generateError rootKey masterKey e
    | none =>
    simp only [not_true_eq_false, ↓reduceIte, Prog.runs_ask_iff] at h
    obtain ⟨⟨wrappedMasterKey, wrapErr⟩, tr6, rfl, e7, tr7, rfl, h⟩ := h
    cases e7 with
    | some e =>
      simp only [not_false_eq_true, reduceCtorEq, ↓reduceIte, Prog.runs_ret_iff] at h
      obtain ⟨rfl, rfl⟩ := h
      exact .insertError rootKey masterKey wrappedMasterKey wrapErr e
    | none =>
    simp only [not_true_eq_false, ↓reduceIte, Prog.runs_ask_iff] at h
    obtain ⟨⟨wrappedDataKey, e8⟩, tr8, rfl, h⟩ := h
    cases e8 with
    | some e =>
      simp only [not_false_eq_true, reduceCtorEq, ↓reduceIte, Prog.runs_ret_iff] at h
      obtain ⟨rfl, rfl⟩ := h
      exact .createdWrapError rootKey masterKey wrappedMasterKey wrapErr wrappedDataKey e
    | none =>
    simp only [not_true_eq_false, ↓reduceIte, Prog.runs_ret_iff] at h
    obtain ⟨rfl, rfl⟩ := h
    exact .createdSuccess rootKey masterKey wrappedMasterKey wrapErr wrappedDataKey
  · simp only [hmki, ↓reduceIte, Prog.runs_ask_iff] at h
    obtain ⟨⟨wrappedMasterKey, e5⟩, tr5, rfl, h⟩ := h
    cases e5 with
    | some e =>
      simp only [not_false_eq_true, reduceCtorEq, ↓reduceIte, Prog.runs_ret_iff] at h
      obtain ⟨rfl, rfl⟩ := h
      exact .fetchError rootKey mki hmki wrappedMasterKey e
    | none =>
    simp only [not_true_eq_false, ↓reduceIte, Prog.runs_ask_iff] at h
    obtain ⟨⟨masterKey, e6⟩, tr6, rfl, h⟩ := h
    cases e6 with
    | some e =>
      simp only [not_false_eq_true, reduceCtorEq, ↓reduceIte, Prog.runs_ret_iff] at h
      obtain ⟨rfl, rfl⟩ := h
      exact .unwrapMasterError rootKey mki hmki wrappedMasterKey masterKey e
    | none =>
    simp only [not_true_eq_false, ↓reduceIte, Prog.runs_ask_iff] at h
    obtain ⟨⟨wrappedDataKey, e8⟩, tr8, rfl, h⟩ := h
    cases e8 with
    | some e =>
      simp only [not_false_eq_true, reduceCtorEq, ↓reduceIte, Prog.runs_ret_iff] at h
      obtain ⟨rfl, rfl⟩ := h
      exact .storedWrapError rootKey mki hmki wrappedMasterKey masterKey wrappedDataKey e
    | none =>
    simp only [not_true_eq_false, ↓reduceIte, Prog.runs_ret_iff] at h
    obtain ⟨rfl, rfl⟩ := h
    exact .storedSuccess rootKey mki hmki wrappedMasterKey masterKey wrappedDataKey

/-- Every execution of `UnwrapKey` on a bound request is one of the listed outcomes. -/
theorem unwrapKey_outcome (req : UnwrapKeyRequest) (tr : List Event)
    (r : Reply UnwrapKeyResponse) (h : (UnwrapKey (req, none)).Runs tr r) :
    UnwrapOutcome req r tr := by
  simp only [UnwrapKey, ne_eq, not_true_eq_false, ↓reduceIte, Prog.runs_ask_iff] at h
  obtain ⟨ok1, tr1, rfl, h⟩ := h
  cases ok1
  · simp only [Bool.not_false, ↓reduceIte, Prog.runs_ret_iff] at h
    obtain ⟨rfl, rfl⟩ := h
    exact .unauthenticated
  simp only [Bool.not_true, Bool.false_eq_true, ↓reduceIte, Prog.runs_ask_iff] at h
  obtain ⟨ok2, tr2, rfl, h⟩ := h
  cases ok2
  · simp only [Bool.not_false, ↓reduceIte, Prog.runs_ret_iff] at h
    obtain ⟨rfl, rfl⟩ := h
    exact .forbidden
  simp only [Bool.not_true, Bool.false_eq_true, ↓reduceIte, Prog.runs_ask_iff] at h
  obtain ⟨⟨mki, e3⟩, tr3, rfl, h⟩ := h
  cases e3 with
  | some e =>
    simp only [not_false_eq_true, reduceCtorEq, ↓reduceIte, Prog.runs_ret_iff] at h
    obtain ⟨rfl, rfl⟩ := h
    exact .lookupError mki e
  | none =>
  simp only [not_true_eq_false, ↓reduceIte] at h
  by_cases hmki : mki = ""
  · subst hmki
    simp only [↓reduceIte, Prog.runs_ret_iff] at h
    obtain ⟨rfl, rfl⟩ := h
    exact .notRegistered
  simp only [hmki, ↓reduceIte, Prog.runs_ask_iff] at h
  obtain ⟨⟨wrappedMasterKey, e4⟩, tr4, rfl, h⟩ := h
  cases e4 with
  | some e =>
    simp only [not_false_eq_true, reduceCtorEq, ↓reduceIte, Prog.runs_ret_iff] at h
    obtain ⟨rfl, rfl⟩ := h
    exact .fetchError mki hmki wrappedMasterKey e
  | none =>
  simp only [not_true_eq_false, ↓reduceIte, Prog.runs_ask_iff] at h
  obtain ⟨⟨rootKey, e5⟩, tr5, rfl, h⟩ := h
  cases e5 with
  | some e =>
    simp only [not_false_eq_true, reduceCtorEq, ↓reduceIte, Prog.runs_ret_iff] at h
    obtain ⟨rfl, rfl⟩ := h
    exact .kmsError mki hmki wrappedMasterKey rootKey e
  | none =>
  simp only [not_true_eq_false, ↓reduceIte, Prog.runs_ask_iff] at h
  obtain ⟨⟨masterKey, e6⟩, tr6, rfl, h⟩ := h
  cases e6 with
  | some e =>
    simp only [not_false_eq_true, reduceCtorEq, ↓reduceIte, Prog.runs_ret_iff] at h
    obtain ⟨rfl, rfl⟩ := h
    exact .unwrapMasterError mki hmki wrappedMasterKey rootKey masterKey e
  | none =>
  simp only [not_true_eq_false, ↓reduceIte, Prog.runs_ask_iff] at h
  obtain ⟨⟨dataKey, e7⟩, tr7, rfl, h⟩ := h
  cases e7 with
  | some e =>
    simp only [not_false_eq_true, reduceCtorEq, ↓reduceIte, Prog.runs_ret_iff] at h
    obtain ⟨rfl, rfl⟩ := h
    exact .invalidWrappedKey mki hmki wrappedMasterKey rootKey masterKey dataKey e
  | none =>
  simp only [not_true_eq_false, ↓reduceIte, Prog.runs_ret_iff] at h
  obtain ⟨rfl, rfl⟩ := h
  exact .success mki hmki wrappedMasterKey rootKey masterKey dataKey

/-- Serving a `WrapKey` request against any oracle ends in one of the listed outcomes. -/
theorem serveWrap_outcome {σ : Type} (o : Oracle σ) (s : σ) (req : WrapKeyRequest) :
    WrapOutcome req (serveWrap o s req).1 (serveWrap o s req).2.2 :=
  wrapKey_outcome req _ _ (Prog.run_runs o _ s)

/-- Serving an `UnwrapKey` request against any oracle ends in one of the listed outcomes. -/
theorem serveUnwrap_outcome {σ : Type} (o : Oracle σ) (s : σ) (req : UnwrapKeyRequest) :
    UnwrapOutcome req (serveUnwrap o s req).1 (serveUnwrap o s req).2.2 :=
  unwrapKey_outcome req _ _ (Prog.run_runs o _ s)

/-! ## Authorization precedence -/

/-- Authentication is the first collaborator call of every bound request, asked in the
initial state: an authentication event in the trace is the oracle's verdict on the token. -/
theorem serve_first_event {σ : Type} (o : Oracle σ) (s : σ) (req : Request) :
    (serve o s req).2.2.head? =
      some ⟨.Authentication req.Token, (o s (.Authentication req.Token)).1⟩ := by
  cases req <;> rfl

/-- C1: when the access-control provider rejects the token of a WrapKey or UnwrapKey
request at authentication, or accepts it at authentication and rejects it at authorization
for the request's (table, column), the handler calls no collaborator other than the
access-control provider: the trace without the auth calls is empty (no registry lookup,
fetch or insert, no root-key fetch, no cryptographic-provider call), whatever the oracle
answers to any other call and whatever its state.  The trace is exactly the failed
authentication, or the passed authentication followed by the failed authorization. -/
theorem auth_failure_makes_no_other_call {σ : Type} (o : Oracle σ) (s : σ) (req : Request)
    (h : (o s (.Authentication req.Token)).1 = false ∨
      ((o s (.Authentication req.Token)).1 = true ∧
        (o (o s (.Authentication req.Token)).2
          (.Authorization req.Token req.Table req.Column)).1 = false)) :
    (calls (serve o s req).2.2).filter (fun c => !c.isAuth) = [] ∧
      ((serve o s req).2.2 = [⟨.Authentication req.Token, false⟩] ∨
        (serve o s req).2.2 =
          [⟨.Authentication req.Token, true⟩,
           ⟨.Authorization req.Token req.Table req.Column, false⟩]) := by
  cases req with
  | wrap q =>
    simp only [Request.Token, Request.Table, Request.Column] at h
    rcases h with h | ⟨h1, h2⟩
    · simp [serve, serveWrap, WrapKey, Prog.run, h, calls, Call.isAuth, Request.Token]
    · simp [serve, serveWrap, WrapKey, Prog.run, h1, h2, calls, Call.isAuth, Request.Token,
        Request.Table, Request.Column]
  | unwrap q =>
    simp only [Request.Token, Request.Table, Request.Column] at h
    rcases h with h | ⟨h1, h2⟩
    · simp [serve, serveUnwrap, UnwrapKey, Prog.run, h, calls, Call.isAuth, Request.Token]
    · simp [serve, serveUnwrap, UnwrapKey, Prog.run, h1, h2, calls, Call.isAuth, Request.Token,
        Request.Table, Request.Column]

/-- Witness for C1: a WrapKey request with the unknown token `T2` fails authentication,
and an UnwrapKey request with the valid token `T1` for column `email`, which the token is
not authorized for, fails authorization; neither makes another call. -/
theorem auth_failure_makes_no_other_call_witness :
    ((World.oracle Outside.oracle ⟨ordersRegistry, Outside.healthy⟩
        (.Authentication "T2")).1 = false ∧
      (calls (serve (World.oracle Outside.oracle) ⟨ordersRegistry, Outside.healthy⟩
        (.wrap { ordersWrap with Token := "T2" })).2.2).filter (fun c => !c.isAuth) = []) ∧
    ((World.oracle Outside.oracle ⟨ordersRegistry, Outside.healthy⟩
        (.Authentication "T1")).1 = true ∧
      (World.oracle Outside.oracle
        (World.oracle Outside.oracle ⟨ordersRegistry, Outside.healthy⟩
          (.Authentication "T1")).2
        (.Authorization "T1" "orders" "email")).1 = false ∧
      (calls (serve (World.oracle Outside.oracle) ⟨ordersRegistry, Outside.healthy⟩
        (.unwrap { ordersUnwrap "k|123-45-6789" with Column := "email" })).2.2).filter
          (fun c => !c.isAuth) = []) :=
  ⟨⟨by decide,
    (auth_failure_makes_no_other_call (World.oracle Outside.oracle)
      ⟨ordersRegistry, Outside.healthy⟩ (.wrap { ordersWrap with Token := "T2" })
      (Or.inl (by decide))).1⟩,
   ⟨by decide, by decide,
    (auth_failure_makes_no_other_call (World.oracle Outside.oracle)
      ⟨ordersRegistry, Outside.healthy⟩
      (.unwrap { ordersUnwrap "k|123-45-6789" with Column := "email" })
      (Or.inr ⟨by decide, by decide⟩)).1⟩⟩

/-! ## Unwrap: business failures and internal faults -/

/-- C5: an UnwrapKey request whose registry lookup succeeds with no master-key id (which
the handler only asks after the token passed authentication and authorization) gets the
business-failure reply: transport success, code -1, the error naming the table as not
registered, no plain key.  The trace is exactly the two auth calls and the lookup, so
there is no call to the root key source, no registry fetch or insert and no
cryptographic-provider call. -/
theorem unwrap_unregistered_table {σ : Type} (o : Oracle σ) (s : σ) (req : UnwrapKeyRequest)
    (h : Event.mk (.GetMkiFromTableName req.Table) ("", none) ∈ (serveUnwrap o s req).2.2) :
    (serveUnwrap o s req).1 =
        .JSON StatusOK
          { Code := -1, PlainKey := "",
            Error := "table " ++ req.Table ++ " has not been registered yet" } ∧
      (serveUnwrap o s req).2.2 =
        [⟨.Authentication req.Token, true⟩,
         ⟨.Authorization req.Token req.Table req.Column, true⟩,
         ⟨.GetMkiFromTableName req.Table, ("", none)⟩] ∧
      (calls (serveUnwrap o s req).2.2).filter
        (fun c => c.isRootKey || c.isFetch || c.isInsert || c.isCrypto) = [] := by
  have ho := serveUnwrap_outcome o s req
  generalize (serveUnwrap o s req).2.2 = tr at h ho ⊢
  generalize (serveUnwrap o s req).1 = r at ho ⊢
  cases ho <;>
    simp_all [authorized, calls, Call.isRootKey, Call.isFetch, Call.isInsert, Call.isCrypto]

/-- Witness for C5: unwrap on the empty registry. -/
theorem unwrap_unregistered_table_witness :
    (Event.mk (.GetMkiFromTableName "orders") ("", none) ∈
        (serveUnwrap (World.oracle Outside.oracle) ⟨[], Outside.healthy⟩
          (ordersUnwrap "k|123-45-6789")).2.2) ∧
      (serveUnwrap (World.oracle Outside.oracle) ⟨[], Outside.healthy⟩
          (ordersUnwrap "k|123-45-6789")).1 =
        .JSON StatusOK
          { Code := -1, PlainKey := "",
            Error := "table orders has not been registered yet" } :=
  ⟨by decide,
   (unwrap_unregistered_table (World.oracle Outside.oracle) ⟨[], Outside.healthy⟩
      (ordersUnwrap "k|123-45-6789") (by decide)).1⟩

/-- C6: when the cryptographic provider rejects the supplied wrapped key under the master
key (a call the handler only makes for an authorized request on a registered table whose
stored master key unwrapped under the root key), UnwrapKey answers with the
InvalidWrappedKey business failure: transport success, code -1, empty plain key.  The reply
is therefore neither a transport-level internal error nor code 0 with a plaintext. -/
theorem unwrap_rejected_wrapped_key {σ : Type} (o : Oracle σ) (s : σ) (req : UnwrapKeyRequest)
    (masterKey dataKey : Bytes) (e : Error)
    (h : Event.mk (.UnwrapDataKey req.WrappedKey masterKey) (dataKey, some e) ∈
      (serveUnwrap o s req).2.2) :
    (serveUnwrap o s req).1 =
        .JSON StatusOK
          { Code := -1, PlainKey := "", Error := "provided data key cannot be unwrapped" } ∧
      (∀ status text, (serveUnwrap o s req).1 ≠ .String status text) ∧
      (∀ status body, (serveUnwrap o s req).1 = .JSON status body → body.Code ≠ 0) := by
  have ho := serveUnwrap_outcome o s req
  generalize (serveUnwrap o s req).2.2 = tr at h ho ⊢
  generalize (serveUnwrap o s req).1 = r at ho ⊢
  cases ho <;> simp_all [authorized]

/-- Witness for C6: a data key wrapped under another master key is rejected. -/
theorem unwrap_rejected_wrapped_key_witness :
    (Event.mk (.UnwrapDataKey "kk|123-45-6789" "k") ("", some "message authentication failed") ∈
        (serveUnwrap (World.oracle Outside.oracle) ⟨ordersRegistry, Outside.healthy⟩
          (ordersUnwrap "kk|123-45-6789")).2.2) ∧
      (serveUnwrap (World.oracle Outside.oracle) ⟨ordersRegistry, Outside.healthy⟩
          (ordersUnwrap "kk|123-45-6789")).1 =
        .JSON StatusOK
          { Code := -1, PlainKey := "", Error := "provided data key cannot be unwrapped" } :=
  ⟨by decide,
   (unwrap_rejected_wrapped_key (World.oracle Outside.oracle) ⟨ordersRegistry, Outside.healthy⟩
      (ordersUnwrap "kk|123-45-6789") "k" "" "message authentication failed" (by decide)).1⟩

/-- C7: in WrapKey and in UnwrapKey alike, when unwrapping the stored wrapped master key
with the root key fails (a call made only for an authorized request whose lookup found a
master-key id and whose fetch succeeded), the request ends with the transport-level
internal-error reply.  It is not a success-envelope reply of any code, the failed unwrap
is the last collaborator call, and the trace holds no data-key wrap or unwrap, no
master-key generation and no registry insert. -/
theorem unwrap_master_failure_is_internal {σ : Type} (o : Oracle σ) (s : σ) (req : Request)
    (wrappedMasterKey rootKey masterKey : Bytes) (e : Error)
    (h : Event.mk (.UnwrapMasterKey wrappedMasterKey rootKey) (masterKey, some e) ∈
      (serve o s req).2.2) :
    ((serve o s req).1 =
          .wrap (.String StatusInternalServerError "internal encryption/decryption error") ∨
        (serve o s req).1 =
          .unwrap (.String StatusInternalServerError "internal encryption/decryption error")) ∧
      (serve o s req).2.2.getLast? =
        some ⟨.UnwrapMasterKey wrappedMasterKey rootKey, (masterKey, some e)⟩ ∧
      (calls (serve o s req).2.2).filter
        (fun c => c.isDataKeyOp || c.isGenerate || c.isInsert) = [] := by
  cases req with
  | wrap q =>
    simp only [serve] at h ⊢
    have ho := serveWrap_outcome o s q
    generalize (serveWrap o s q).2.2 = tr at h ho ⊢
    generalize (serveWrap o s q).1 = r at ho ⊢
    cases ho <;>
      simp_all [authorized, calls, Call.isDataKeyOp, Call.isGenerate, Call.isInsert]
  | unwrap q =>
    simp only [serve] at h ⊢
    have ho := serveUnwrap_outcome o s q
    generalize (serveUnwrap o s q).2.2 = tr at h ho ⊢
    generalize (serveUnwrap o s q).1 = r at ho ⊢
    cases ho <;>
      simp_all [authorized, calls, Call.isDataKeyOp, Call.isGenerate, Call.isInsert]

/-- Witness for C7: the root key source now answers another root key than the one the
stored `orders` record was wrapped under. -/
theorem unwrap_master_failure_is_internal_witness :
    (Event.mk (.UnwrapMasterKey "root|k" "other") ("", some "message authentication failed") ∈
        (serve (World.oracle Outside.oracle)
          ⟨ordersRegistry, { Outside.healthy with rootKey := ("other", none) }⟩
          (.wrap ordersWrap)).2.2) ∧
      ((serve (World.oracle Outside.oracle)
          ⟨ordersRegistry, { Outside.healthy with rootKey := ("other", none) }⟩
          (.wrap ordersWrap)).1 =
        .wrap (.String StatusInternalServerError "internal encryption/decryption error") ∨
       (serve (World.oracle Outside.oracle)
          ⟨ordersRegistry, { Outside.healthy with rootKey := ("other", none) }⟩
          (.wrap ordersWrap)).1 =
        .unwrap (.String StatusInternalServerError "internal encryption/decryption error")) :=
  ⟨by decide,
   (unwrap_master_failure_is_internal (World.oracle Outside.oracle)
      ⟨ordersRegistry, { Outside.healthy with rootKey := ("other", none) }⟩
      (.wrap ordersWrap) "root|k" "other" "" "message authentication failed" (by decide)).1⟩

/-! ## The registry under one request -/

/-- One call against a world: the registry changes as the event says, and the answer is
the registry's. -/
theorem World.oracle_reg {ε : Type} (x : Oracle ε) (w : World ε) (c : Call) :
    (World.oracle x w c).2.reg = (Event.mk c (World.oracle x w c).1).applyTo w.reg ∧
      (Event.mk c (World.oracle x w c).1).agreesWith w.reg := by
  cases c <;> simp only [World.oracle, Event.applyTo, Event.agreesWith, and_self]
  case GetMkiFromTableName table =>
    rcases x w.ext (.GetMkiFromTableName table) with ⟨⟨v, e⟩, s⟩
    cases e with
    | some e => simp
    | none =>
      simp only [Registry.GetMkiFromTableName, true_and]
      rcases hf : List.find? (fun r => decide (r.table = table)) w.reg with _ | r <;>
        simp only [hf]
  case GetWrappedMasterKeyFromMki mki =>
    rcases x w.ext (.GetWrappedMasterKeyFromMki mki) with ⟨⟨v, e⟩, s⟩
    cases e with
    | some e => simp
    | none =>
      simp only [Registry.GetWrappedMasterKeyFromMki, true_and]
      rcases hf : List.find? (fun r => decide (r.masterKeyId = mki)) w.reg with _ | r <;>
        simp only [hf]
  case AddMasterKeyAndTableMapping wrapped table =>
    rcases x w.ext (.AddMasterKeyAndTableMapping wrapped table) with ⟨e, s⟩
    cases e with
    | some e => simp
    | none =>
      simp only [Registry.AddMasterKeyAndTableMapping]
      by_cases h : (w.reg.any fun r => decide (r.table = table)) = true
      · simp [h]
      · simp only [h, Bool.false_eq_true, ↓reduceIte]
        simp [Registry.newRecord, h]

/-- A whole run against a world: the final registry is the initial one with the trace's
inserts applied, and the trace agrees with the registry. -/
theorem World.run_reg {ε ρ : Type} (x : Oracle ε) (p : Prog ρ) (w : World ε) :
    (p.run (World.oracle x) w).2.1.reg = (p.run (World.oracle x) w).2.2.foldl Event.applyTo w.reg ∧
      agrees w.reg (p.run (World.oracle x) w).2.2 := by
  induction p generalizing w with
  | ret r => simp [Prog.run, agrees]
  | ask c k ih =>
    have h1 := World.oracle_reg x w c
    have h2 := ih (World.oracle x w c).1 (World.oracle x w c).2
    simp only [Prog.run, List.foldl_cons, agrees]
    rw [← h1.1]
    exact ⟨h2.1, h1.2, h2.2⟩

/-- Appending a record for a table without one keeps one record per table. -/
theorem Registry.onePerTable_append (reg : Registry) (wrappedMasterKey table : String)
    (h : reg.OnePerTable) (hnew : reg.any (fun r => r.table = table) = false) :
    Registry.OnePerTable (reg ++ [Registry.newRecord wrappedMasterKey table]) := by
  unfold Registry.OnePerTable at *
  rw [List.map_append, List.nodup_append]
  refine ⟨h, by simp, ?_⟩
  simp only [List.any_eq_false, decide_eq_true_eq] at hnew
  intro t ht ht2
  simp only [List.mem_map] at ht
  obtain ⟨r, hr, rfl⟩ := ht
  simp only [Registry.newRecord, List.map_cons, List.map_nil, List.mem_singleton] at ht2
  exact hnew r hr ht2

/-- What one request does to the registry of a world: nothing, or (WrapKey only, after a
lookup that found no master-key id for a table without a record) append one record for
the request's table. -/
theorem serve_registry_step {ε : Type} (x : Oracle ε) (w : World ε) (r : Request) :
    (serve (World.oracle x) w r).2.1.reg = w.reg ∨
      ∃ q wrappedMasterKey, r = .wrap q ∧
        Event.mk (.GetMkiFromTableName q.Table) ("", none) ∈
          (serve (World.oracle x) w r).2.2 ∧
        w.reg.any (fun rec => rec.table = q.Table) = false ∧
        (serve (World.oracle x) w r).2.1.reg =
          w.reg ++ [Registry.newRecord wrappedMasterKey q.Table] := by
  cases r with
  | wrap q =>
    simp only [serve, serveWrap]
    have hreg := World.run_reg x (WrapKey (q, none)) w
    have ho := serveWrap_outcome (World.oracle x) w q
    simp only [serveWrap] at ho
    generalize ((WrapKey (q, none)).run (World.oracle x) w).2.2 = tr at hreg ho ⊢
    generalize ((WrapKey (q, none)).run (World.oracle x) w).1 = rep at ho ⊢
    generalize ((WrapKey (q, none)).run (World.oracle x) w).2.1 = w1 at hreg ⊢
    obtain ⟨h1, h2⟩ := hreg
    cases ho <;>
      simp_all [authorized, agrees, Event.applyTo, Event.agreesWith]
    all_goals exact ⟨_, rfl⟩
  | unwrap q =>
    left
    simp only [serve, serveUnwrap]
    have hreg := World.run_reg x (UnwrapKey (q, none)) w
    have ho := serveUnwrap_outcome (World.oracle x) w q
    simp only [serveUnwrap] at ho
    generalize ((UnwrapKey (q, none)).run (World.oracle x) w).2.2 = tr at hreg ho ⊢
    generalize ((UnwrapKey (q, none)).run (World.oracle x) w).1 = rep at ho ⊢
    generalize ((UnwrapKey (q, none)).run (World.oracle x) w).2.1 = w1 at hreg ⊢
    obtain ⟨h1, h2⟩ := hreg
    cases ho <;>
      simp_all [authorized, agrees, Event.applyTo, Event.agreesWith]
/-! ## Registration: insert failures -/

/-- Counterexample to C3: a request loses the race on the first use of `orders` (its
lookup finds no master-key id, a rival registers the table, its own insert is answered
with a uniqueness violation).  WrapKey then replies with the internal database error, not
with the success response, and never re-fetches the rival's record, which stays the only
one in the registry. -/
theorem uniqueness_violation_is_surfaced :
    Event.mk (.GetMkiFromTableName "orders") ("", none) ∈
        (serveWrap (World.racingOracle Outside.oracle "root|rival")
          ⟨[], Outside.healthy⟩ ordersWrap).2.2 ∧
      Event.mk (.AddMasterKeyAndTableMapping "root|k" "orders") (some "unique violation") ∈
        (serveWrap (World.racingOracle Outside.oracle "root|rival")
          ⟨[], Outside.healthy⟩ ordersWrap).2.2 ∧
      (serveWrap (World.racingOracle Outside.oracle "root|rival")
          ⟨[], Outside.healthy⟩ ordersWrap).1 =
        .String StatusInternalServerError "internal database error" ∧
      (calls (serveWrap (World.racingOracle Outside.oracle "root|rival")
          ⟨[], Outside.healthy⟩ ordersWrap).2.2).filter Call.isFetch = [] ∧
      (serveWrap (World.racingOracle Outside.oracle "root|rival")
          ⟨[], Outside.healthy⟩ ordersWrap).2.1.reg =
        [{ table := "orders", masterKeyId := "mki:orders",
           wrappedMasterKey := "root|rival" }] := by
  refine ⟨by decide, by decide, by decide, by decide, by decide⟩

/-- C3 (amended): when the registry insert of a WrapKey request is answered with an error,
a uniqueness violation included, WrapKey returns the transport-level internal-error reply
`internal database error`.  The failed insert is its last collaborator call: it does not
re-fetch the record and does not wrap the data key. -/
theorem insert_failure_is_internal_error {σ : Type} (o : Oracle σ) (s : σ)
    (req : WrapKeyRequest) (wrappedMasterKey : Bytes) (e : Error)
    (h : Event.mk (.AddMasterKeyAndTableMapping wrappedMasterKey req.Table) (some e) ∈
      (serveWrap o s req).2.2) :
    (serveWrap o s req).1 = .String StatusInternalServerError "internal database error" ∧
      (serveWrap o s req).2.2.getLast? =
        some ⟨.AddMasterKeyAndTableMapping wrappedMasterKey req.Table, some e⟩ ∧
      Event.mk (.GetMkiFromTableName req.Table) ("", none) ∈ (serveWrap o s req).2.2 ∧
      (calls (serveWrap o s req).2.2).filter (fun c => c.isFetch || c.isDataKeyOp) = [] := by
  have ho := serveWrap_outcome o s req
  generalize (serveWrap o s req).2.2 = tr at h ho ⊢
  generalize (serveWrap o s req).1 = r at ho ⊢
  cases ho <;> simp_all [authorized, calls, Call.isFetch, Call.isDataKeyOp]

/-- Witness for C3 (amended): the registry connection drops during the insert. -/
theorem insert_failure_is_internal_error_witness :
    (Event.mk (.AddMasterKeyAndTableMapping "root|k" "orders") (some "connection reset") ∈
        (serveWrap (World.oracle Outside.oracle) ⟨[], Outside.insertFails⟩ ordersWrap).2.2) ∧
      (serveWrap (World.oracle Outside.oracle) ⟨[], Outside.insertFails⟩ ordersWrap).1 =
        .String StatusInternalServerError "internal database error" :=
  ⟨by decide,
   (insert_failure_is_internal_error (World.oracle Outside.oracle) ⟨[], Outside.insertFails⟩
      ordersWrap "root|k" "connection reset" (by decide)).1⟩

/-! ## Failures of the cryptographic provider in WrapKey -/

/-- C4, the code at the failing input: on the first use of `orders` the provider fails to
wrap the new master key.  The handler does not read that error: it goes on to insert the
(empty) wrapped master key into the registry, wraps the data key and replies with the
success response. -/
theorem failed_master_wrap_is_ignored :
    (serveWrap (World.oracle Outside.oracle) ⟨[], Outside.wrapMasterFails⟩ ordersWrap).2.2 =
        [⟨.Authentication "T1", true⟩,
         ⟨.Authorization "T1" "orders" "ssn", true⟩,
         ⟨.GetRootKey, ("root", none)⟩,
         ⟨.GetMkiFromTableName "orders", ("", none)⟩,
         ⟨.GenerateNewMasterKey, ("k", none)⟩,
         ⟨.WrapMasterKey "k" "root", ("", some "cipher failure")⟩,
         ⟨.AddMasterKeyAndTableMapping "" "orders", none⟩,
         ⟨.WrapDataKey "123-45-6789" "k", ("k|123-45-6789", none)⟩] ∧
      (serveWrap (World.oracle Outside.oracle) ⟨[], Outside.wrapMasterFails⟩ ordersWrap).1 =
        .JSON StatusOK { Code := 0, WrappedKey := "k|123-45-6789" } ∧
      (serveWrap (World.oracle Outside.oracle) ⟨[], Outside.wrapMasterFails⟩
          ordersWrap).2.1.reg =
        [{ table := "orders", masterKeyId := "mki:orders", wrappedMasterKey := "" }] := by
  refine ⟨by decide, by decide, by decide⟩

/-- The other three provider calls of WrapKey are checked: when generating the master
key, unwrapping the stored master key or wrapping the data key fails, the reply is a
transport-level internal error and the failed call is the last collaborator call. -/
theorem checked_crypto_failure_is_terminal {σ : Type} (o : Oracle σ) (s : σ)
    (req : WrapKeyRequest) (v : Bytes) (e : Error) :
    (Event.mk .GenerateNewMasterKey (v, some e) ∈ (serveWrap o s req).2.2 →
      (serveWrap o s req).1 = .String StatusInternalServerError "internal encryption error" ∧
      (serveWrap o s req).2.2.getLast? = some ⟨.GenerateNewMasterKey, (v, some e)⟩) ∧
    (∀ wrapped rootKey,
      Event.mk (.UnwrapMasterKey wrapped rootKey) (v, some e) ∈ (serveWrap o s req).2.2 →
      (serveWrap o s req).1 =
        .String StatusInternalServerError "internal encryption/decryption error" ∧
      (serveWrap o s req).2.2.getLast? =
        some ⟨.UnwrapMasterKey wrapped rootKey, (v, some e)⟩) ∧
    (∀ dataKey masterKey,
      Event.mk (.WrapDataKey dataKey masterKey) (v, some e) ∈ (serveWrap o s req).2.2 →
      (serveWrap o s req).1 = .String StatusInternalServerError "internal encryption error" ∧
      (serveWrap o s req).2.2.getLast? =
        some ⟨.WrapDataKey dataKey masterKey, (v, some e)⟩) := by
  have ho := serveWrap_outcome o s req
  generalize (serveWrap o s req).2.2 = tr at ho ⊢
  generalize (serveWrap o s req).1 = r at ho ⊢
  refine ⟨?_, ?_, ?_⟩
  · intro h
    cases ho <;> simp_all [authorized]
  · intro wrapped rootKey h
    cases ho <;> simp_all [authorized]
  · intro dataKey masterKey h
    cases ho <;> simp_all [authorized]

/-! ## Round trip -/

/-- The toy provider unwraps what it wrapped under the same key. -/
theorem toyUnwrap_toyWrap (key text wrapped : Bytes) (h : toyWrap key text = (wrapped, none)) :
    toyUnwrap key wrapped = (text, none) := by
  unfold toyWrap at h
  by_cases hk : key = ""
  · simp [hk] at h
  · simp only [hk, ↓reduceIte, Prod.mk.injEq, and_true] at h
    subst h
    have hp : (key.data ++ ['|']).isPrefixOf (key.data ++ '|' :: text.data) = true := by
      rw [List.isPrefixOf_iff_prefix]
      exact ⟨text.data, by simp⟩
    have hd : (key.data ++ '|' :: text.data).drop (key.data.length + 1) = text.data := by
      have : key.data ++ '|' :: text.data = (key.data ++ ['|']) ++ text.data := by simp
      rw [this, List.drop_left' (by simp)]
    simp only [toyUnwrap, ne_eq, hk, not_false_eq_true, hp, and_self, ↓reduceIte, hd]

/-- C2, the code at the failing input: the root key source hands out a root key the
provider cannot use, so wrapping the new master key of `orders` fails; the handler ignores
that error, stores an empty wrapped master key and replies to WrapKey with success and a
wrapped data key.  The following UnwrapKey of that wrapped key, against the resulting
registry and the same root key, ends in an internal error instead of the plain key, although
the provider's unwrap inverts its wrap under every key. -/
theorem roundtrip_fails_after_ignored_wrap_error :
    (∀ key text wrapped, toyWrap key text = (wrapped, none) →
        toyUnwrap key wrapped = (text, none)) ∧
      (serveWrap (World.oracle Outside.oracle) ⟨[], Outside.badRootKey⟩ ordersWrap).1 =
        .JSON StatusOK { Code := 0, WrappedKey := "k|123-45-6789" } ∧
      Event.mk (.WrapMasterKey "k" "") ("", some "invalid key size") ∈
        (serveWrap (World.oracle Outside.oracle) ⟨[], Outside.badRootKey⟩ ordersWrap).2.2 ∧
      (serveUnwrap (World.oracle Outside.oracle)
          (serveWrap (World.oracle Outside.oracle) ⟨[], Outside.badRootKey⟩ ordersWrap).2.1
          (ordersUnwrap "k|123-45-6789")).1 =
        .String StatusInternalServerError "internal encryption/decryption error" := by
  refine ⟨toyUnwrap_toyWrap, by decide, by decide, by decide⟩
/-! ## Facts about the registry model -/

/-- Ids given by the store are never empty. -/
theorem Registry.newMki_ne_empty (table : String) : Registry.newMki table ≠ "" := by
  intro h
  have := congrArg String.data h
  simp [Registry.newMki, String.data_append] at this

/-- Ids given by the store determine the table. -/
theorem Registry.newMki_injective (t1 t2 : String)
    (h : Registry.newMki t1 = Registry.newMki t2) : t1 = t2 := by
  have := congrArg String.data h
  simp only [Registry.newMki, String.data_append, List.append_cancel_left_eq] at this
  exact String.ext this

/-- A lookup that returns a master-key id found a record of the table with that id. -/
theorem Registry.lookup_found (reg : Registry) (table mki : String)
    (h : reg.GetMkiFromTableName table = (mki, none)) (hmki : mki ≠ "") :
    ∃ rec ∈ reg, rec.table = table ∧ rec.masterKeyId = mki := by
  unfold Registry.GetMkiFromTableName at h
  rcases hf : List.find? (fun r => decide (r.table = table)) reg with _ | r
  · simp only [hf, Prod.mk.injEq, and_true] at h
    exact absurd h.symm hmki
  · simp only [hf, Prod.mk.injEq, and_true] at h
    exact ⟨r, List.mem_of_find?_eq_some hf, by simpa using List.find?_some hf, h⟩

/-- A fetch that succeeds returns the wrapped master key of a record with the given id. -/
theorem Registry.fetch_found (reg : Registry) (mki : String) (wrapped : Bytes)
    (h : reg.GetWrappedMasterKeyFromMki mki = (wrapped, none)) :
    ∃ rec ∈ reg, rec.masterKeyId = mki ∧ rec.wrappedMasterKey = wrapped := by
  unfold Registry.GetWrappedMasterKeyFromMki at h
  rcases hf : List.find? (fun r => decide (r.masterKeyId = mki)) reg with _ | r
  · simp [hf] at h
  · simp only [hf, Prod.mk.injEq, and_true] at h
    exact ⟨r, List.mem_of_find?_eq_some hf, by simpa using List.find?_some hf, h⟩

/-- In a well-formed registry the table and the master-key id name the same record. -/
theorem Registry.WellFormed.same_record {reg : Registry} (hwf : reg.WellFormed)
    {r1 r2 : MasterKeyRecord} (h1 : r1 ∈ reg) (h2 : r2 ∈ reg)
    (h : r1.table = r2.table ∨ r1.masterKeyId = r2.masterKeyId) : r1 = r2 := by
  have ht : r1.table = r2.table := by
    rcases h with h | h
    · exact h
    · rw [hwf.2 r1 h1, hwf.2 r2 h2] at h
      exact Registry.newMki_injective _ _ h
  exact List.inj_on_of_nodup_map hwf.1 h1 h2 ht

/-- Appending a record for a table without one keeps the registry well-formed. -/
theorem Registry.WellFormed.append {reg : Registry} (hwf : reg.WellFormed)
    (wrappedMasterKey table : String) (hnew : reg.any (fun r => r.table = table) = false) :
    Registry.WellFormed (reg ++ [Registry.newRecord wrappedMasterKey table]) := by
  refine ⟨Registry.onePerTable_append reg _ _ hwf.1 hnew, ?_⟩
  intro r hr
  rcases List.mem_append.1 hr with h | h
  · exact hwf.2 r h
  · simp only [List.mem_singleton] at h
    subst h
    rfl

/-- One request keeps the registry well-formed. -/
theorem serve_wellFormed {ε : Type} (x : Oracle ε) (w : World ε) (r : Request)
    (h : w.reg.WellFormed) : (serve (World.oracle x) w r).2.1.reg.WellFormed := by
  rcases serve_registry_step x w r with h1 | ⟨q, wmk, -, -, hnew, h1⟩
  · rw [h1]; exact h
  · rw [h1]; exact h.append _ _ hnew

/-- Every registry reached from the empty one by serving requests is well-formed. -/
theorem serveAll_wellFormed {ε : Type} (x : Oracle ε) (w : World ε) (reqs : List Request)
    (h : w.reg.WellFormed) : (serveAll (World.oracle x) w reqs).reg.WellFormed := by
  induction reqs generalizing w with
  | nil => exact h
  | cons r rest ih =>
    simp only [serveAll, List.foldl_cons]
    exact ih _ (serve_wellFormed x w r h)

/-! ## The registry invariant over sequences of requests -/

/-- One request keeps one record per table. -/
theorem serve_onePerTable {ε : Type} (x : Oracle ε) (w : World ε) (r : Request)
    (h : w.reg.OnePerTable) : (serve (World.oracle x) w r).2.1.reg.OnePerTable := by
  rcases serve_registry_step x w r with h1 | ⟨q, wmk, -, -, hnew, h1⟩
  · rw [h1]; exact h
  · rw [h1]; exact Registry.onePerTable_append _ _ _ h hnew

/-- A sequence of requests keeps one record per table. -/
theorem serveAll_onePerTable {ε : Type} (x : Oracle ε) (w : World ε) (reqs : List Request)
    (h : w.reg.OnePerTable) : (serveAll (World.oracle x) w reqs).reg.OnePerTable := by
  induction reqs generalizing w with
  | nil => exact h
  | cons r rest ih =>
    simp only [serveAll, List.foldl_cons]
    exact ih _ (serve_onePerTable x w r h)

/-- C8: starting from a registry with at most one master-key record per table, after any
finite sequence of WrapKey and UnwrapKey requests served one after another (any requests,
any behaviour of the outside, faults included) the registry still has at most one record
per table.  Moreover each request of the sequence either leaves the registry as it found
it, or is a WrapKey request whose lookup returned no master-key id for a table that had no
record, and it appended exactly one record, for that table. -/
theorem registry_keeps_one_record_per_table {ε : Type} (x : Oracle ε) (w : World ε)
    (reqs : List Request) (h : w.reg.OnePerTable) :
    (serveAll (World.oracle x) w reqs).reg.OnePerTable ∧
      ∀ pre r post, reqs = pre ++ r :: post →
        (serveAll (World.oracle x) w pre).reg.OnePerTable ∧
        ((serve (World.oracle x) (serveAll (World.oracle x) w pre) r).2.1.reg =
            (serveAll (World.oracle x) w pre).reg ∨
          ∃ q wrappedMasterKey, r = .wrap q ∧
            Event.mk (.GetMkiFromTableName q.Table) ("", none) ∈
              (serve (World.oracle x) (serveAll (World.oracle x) w pre) r).2.2 ∧
            (∀ rec ∈ (serveAll (World.oracle x) w pre).reg, rec.table ≠ q.Table) ∧
            (serve (World.oracle x) (serveAll (World.oracle x) w pre) r).2.1.reg =
              (serveAll (World.oracle x) w pre).reg ++
                [{ table := q.Table, masterKeyId := Registry.newMki q.Table,
                   wrappedMasterKey := wrappedMasterKey }]) := by
  refine ⟨serveAll_onePerTable x w reqs h, ?_⟩
  intro pre r post _
  refine ⟨serveAll_onePerTable x w pre h, ?_⟩
  rcases serve_registry_step x (serveAll (World.oracle x) w pre) r with
    h1 | ⟨q, wmk, hr, hl, hnew, h1⟩
  · exact Or.inl h1
  · refine Or.inr ⟨q, wmk, hr, hl, ?_, h1⟩
    simpa using hnew

/-- Witness for C8: wrap, unwrap and wrap again on the empty registry. -/
theorem registry_keeps_one_record_per_table_witness :
    Registry.OnePerTable [] ∧
      (serveAll (World.oracle Outside.oracle) ⟨[], Outside.healthy⟩
        [.wrap ordersWrap, .unwrap (ordersUnwrap "k|123-45-6789"),
         .wrap ordersWrap]).reg.OnePerTable :=
  ⟨List.nodup_nil,
   (registry_keeps_one_record_per_table Outside.oracle ⟨[], Outside.healthy⟩
      [.wrap ordersWrap, .unwrap (ordersUnwrap "k|123-45-6789"), .wrap ordersWrap]
      List.nodup_nil).1⟩
/-! ## Master-key records are created once and then only read -/

/-- The lookup of a registered table returns the id of its record. -/
theorem Registry.lookup_registered {reg : Registry} (hwf : reg.WellFormed)
    {rec : MasterKeyRecord} (hrec : rec ∈ reg) :
    reg.GetMkiFromTableName rec.table = (rec.masterKeyId, none) := by
  unfold Registry.GetMkiFromTableName
  rcases hf : List.find? (fun r => decide (r.table = rec.table)) reg with _ | r
  · have := List.find?_eq_none.1 hf rec hrec
    simp at this
  · have hr := List.mem_of_find?_eq_some hf
    have ht : r.table = rec.table := by simpa using List.find?_some hf
    simp only [hf]
    rw [hwf.same_record hr hrec (Or.inl ht)]

/-- An event either leaves the registry alone or is a successful insert that appends its
record. -/
theorem Event.applyTo_cases (reg : Registry) (ev : Event) :
    ev.applyTo reg = reg ∨
      ∃ wrapped table, ev = ⟨.AddMasterKeyAndTableMapping wrapped table, none⟩ ∧
        ev.applyTo reg = reg ++ [Registry.newRecord wrapped table] := by
  rcases ev with ⟨c, a⟩
  cases c <;> first
    | exact Or.inl rfl
    | (cases a
       · exact Or.inr ⟨_, _, rfl, rfl⟩
       · exact Or.inl rfl)

/-- The registry only grows. -/
theorem Event.applyTo_subset (reg : Registry) (ev : Event) :
    ∀ r ∈ reg, r ∈ ev.applyTo reg := by
  intro r hr
  rcases Event.applyTo_cases reg ev with h | ⟨_, _, -, h⟩
  · rw [h]; exact hr
  · rw [h]; exact List.mem_append_left _ hr

/-- A well-formed registry stays well-formed under an event that agrees with it. -/
theorem Event.applyTo_wellFormed (reg : Registry) (ev : Event) (hwf : reg.WellFormed)
    (hag : ev.agreesWith reg) : (ev.applyTo reg).WellFormed := by
  rcases Event.applyTo_cases reg ev with h | ⟨wrapped, table, rfl, h⟩
  · rw [h]; exact hwf
  · rw [h]; exact hwf.append _ _ hag

/-- What an event witnessed stays true when the registry grows. -/
theorem Event.witnessedBy_mono (reg reg2 : Registry) (ev : Event)
    (hsub : ∀ r ∈ reg, r ∈ reg2) (h : ev.witnessedBy reg) : ev.witnessedBy reg2 := by
  rcases ev with ⟨c, a⟩
  cases c <;> try exact trivial
  case GetMkiFromTableName table =>
    rcases a with ⟨mki, _ | e⟩
    · intro hmki
      obtain ⟨rec, hrec, h1⟩ := h hmki
      exact ⟨rec, hsub rec hrec, h1⟩
    · exact trivial
  case GetWrappedMasterKeyFromMki mki =>
    rcases a with ⟨wrapped, _ | e⟩
    · obtain ⟨rec, hrec, h1⟩ := h
      exact ⟨rec, hsub rec hrec, h1⟩
    · exact trivial
  case AddMasterKeyAndTableMapping wrapped table =>
    cases a
    · exact hsub _ h
    · exact trivial

/-- The registry that answered an event bears witness to it right after. -/
theorem Event.witnessedBy_applyTo (reg : Registry) (ev : Event) (hag : ev.agreesWith reg) :
    ev.witnessedBy (ev.applyTo reg) := by
  rcases ev with ⟨c, a⟩
  cases c <;> try exact trivial
  case GetMkiFromTableName table =>
    rcases a with ⟨mki, _ | e⟩
    · intro hmki
      exact Registry.lookup_found reg table mki hag hmki
    · exact trivial
  case GetWrappedMasterKeyFromMki mki =>
    rcases a with ⟨wrapped, _ | e⟩
    · exact Registry.fetch_found reg mki wrapped hag
    · exact trivial
  case AddMasterKeyAndTableMapping wrapped table =>
    cases a
    · show Registry.newRecord wrapped table ∈ reg ++ [Registry.newRecord wrapped table]
      simp
    · exact trivial

/-- The pool of freshly bound requests is sound. -/
theorem Pool.start_sound {ε : Type} (w : World ε) (reqs : List WrapKeyRequest)
    (hwf : w.reg.WellFormed) : (Pool.start w reqs).Sound := by
  refine ⟨hwf, ?_, ?_⟩
  · intro f hf tr r h
    simp only [Pool.start, List.mem_map] at hf
    obtain ⟨q, -, rfl⟩ := hf
    simpa using h
  · intro f hf ev hev
    simp only [Pool.start, List.mem_map] at hf
    obtain ⟨q, -, rfl⟩ := hf
    simp at hev

/-- One step of any flight keeps the pool sound. -/
theorem Pool.step_sound {ε : Type} (x : Oracle ε) (p : Pool ε) (i : Nat) (h : p.Sound) :
    (Pool.step x p i).Sound := by
  unfold Pool.step
  rcases hf : p.flights[i]? with _ | ⟨q, rest, tr⟩
  · exact h
  cases rest with
  | ret r => exact h
  | ask c k =>
    have hmem : (⟨q, .ask c k, tr⟩ : Flight) ∈ p.flights := List.getElem?_mem hf
    obtain ⟨hreg, hag⟩ := World.oracle_reg x p.world c
    refine ⟨?_, ?_, ?_⟩
    · show (World.oracle x p.world c).2.reg.WellFormed
      rw [hreg]
      exact Event.applyTo_wellFormed _ _ h.wellFormed hag
    · intro f hfs tr2 r hr
      rcases List.mem_or_eq_of_mem_set hfs with hold | rfl
      · exact h.runs f hold tr2 r hr
      · have := h.runs _ hmem (⟨c, (World.oracle x p.world c).1⟩ :: tr2) r (.ask _ _ _ _ _ hr)
        simpa using this
    · intro f hfs ev hev
      show ev.witnessedBy (World.oracle x p.world c).2.reg
      rw [hreg]
      rcases List.mem_or_eq_of_mem_set hfs with hold | rfl
      · exact Event.witnessedBy_mono _ _ ev (Event.applyTo_subset _ _) (h.witnessed f hold ev hev)
      · rcases List.mem_append.1 hev with hev | hev
        · exact Event.witnessedBy_mono _ _ ev (Event.applyTo_subset _ _)
            (h.witnessed _ hmem ev hev)
        · simp only [List.mem_singleton] at hev
          subst hev
          exact Event.witnessedBy_applyTo _ _ hag

/-- Every schedule keeps the pool sound. -/
theorem Pool.run_sound {ε : Type} (x : Oracle ε) (p : Pool ε) (schedule : List Nat)
    (h : p.Sound) : (Pool.run x p schedule).Sound := by
  induction schedule generalizing p with
  | nil => exact h
  | cons i rest ih => exact ih _ (Pool.step_sound x p i h)

/-- A step changes no flight's request. -/
theorem Pool.step_reqs {ε : Type} (x : Oracle ε) (p : Pool ε) (i : Nat) :
    (Pool.step x p i).flights.map Flight.req = p.flights.map Flight.req := by
  unfold Pool.step
  rcases hf : p.flights[i]? with _ | ⟨q, rest, tr⟩
  · rfl
  cases rest with
  | ret r => rfl
  | ask c k =>
    simp only [List.map_set]
    apply List.ext_getElem? 
    intro n
    rw [List.getElem?_set]
    split
    · next hin =>
      subst hin
      simp only [List.length_map, List.getElem?_map, hf, Option.map_some']
      split
      · simp
      · next hlen =>
        rw [List.getElem?_eq_none (Nat.le_of_not_lt hlen)] at hf
        cases hf
    · rfl

/-- A schedule changes no flight's request. -/
theorem Pool.run_reqs {ε : Type} (x : Oracle ε) (p : Pool ε) (schedule : List Nat) :
    (Pool.run x p schedule).flights.map Flight.req = p.flights.map Flight.req := by
  induction schedule generalizing p with
  | nil => rfl
  | cons i rest ih =>
    show (Pool.run x (Pool.step x p i) rest).flights.map Flight.req = _
    rw [ih, Pool.step_reqs]

/-- A flight that has replied went through a complete execution of `WrapKey`. -/
theorem Pool.Sound.outcome {ε : Type} {p : Pool ε} (h : p.Sound) {f : Flight}
    (hf : f ∈ p.flights) {reply : Reply WrapKeyResponse} (hr : f.reply = some reply) :
    WrapOutcome f.req reply f.trace := by
  have hrest : f.rest = .ret reply := by
    unfold Flight.reply at hr
    cases hrest : f.rest with
    | ret r => simp only [hrest, Option.some.injEq] at hr; rw [hr]
    | ask c k => simp [hrest] at hr
  have := h.runs f hf [] reply (by rw [hrest]; exact .ret reply)
  rw [List.append_nil] at this
  exact wrapKey_outcome _ _ _ this

/-! ## Linking the flights' traces to the oracle -/

/-- A call never removes a record. -/
theorem World.oracle_subset {ε : Type} (x : Oracle ε) (w : World ε) (c : Call) :
    ∀ r ∈ w.reg, r ∈ (World.oracle x w c).2.reg := by
  rw [(World.oracle_reg x w c).1]
  exact Event.applyTo_subset _ _

/-- A linked trace stays linked when the final registry grows. -/
theorem answeredFrom_mono {ε : Type} (x : Oracle ε) (lo hi hi2 : Registry) (tr : List Event)
    (hsub : ∀ r ∈ hi, r ∈ hi2) (h : answeredFrom x lo tr hi) : answeredFrom x lo tr hi2 := by
  induction tr generalizing lo with
  | nil => exact fun r hr => hsub r (h r hr)
  | cons ev tr ih =>
    obtain ⟨w, h1, h2, h3⟩ := h
    exact ⟨w, h1, h2, ih _ h3⟩

/-- A linked trace extended by a call answered in a world at least as large as its final
registry. -/
theorem answeredFrom_snoc {ε : Type} (x : Oracle ε) (lo hi : Registry) (tr : List Event)
    (w : World ε) (c : Call) (h : answeredFrom x lo tr hi) (hsub : ∀ r ∈ hi, r ∈ w.reg) :
    answeredFrom x lo (tr ++ [⟨c, (World.oracle x w c).1⟩]) (World.oracle x w c).2.reg := by
  induction tr generalizing lo with
  | nil => exact ⟨w, fun r hr => hsub r (h r hr), rfl, fun r hr => hr⟩
  | cons ev tr ih =>
    obtain ⟨w1, h1, h2, h3⟩ := h
    exact ⟨w1, h1, h2, ih _ h3⟩

/-- A flight of a pool is still in the pool after another flight was replaced, or it is the
flight that was replaced. -/
theorem mem_set_or_eq {α : Type} (l : List α) (i : Nat) (a b c : α)
    (hi : l[i]? = some a) (hc : c ∈ l) : c ∈ l.set i b ∨ c = a := by
  obtain ⟨j, hj⟩ := List.mem_iff_getElem?.1 hc
  by_cases hij : i = j
  · subst hij
    rw [hi] at hj
    exact Or.inr (Option.some.inj hj).symm
  · left
    apply List.mem_iff_getElem?.2
    exact ⟨j, by rw [List.getElem?_set_ne hij]; exact hj⟩

/-- The pool of freshly bound requests is linked. -/
theorem Pool.start_linked {ε : Type} (x : Oracle ε) (w : World ε)
    (reqs : List WrapKeyRequest) : (Pool.start w reqs).Linked x w.reg := by
  refine ⟨?_, fun rec hrec => Or.inl hrec⟩
  intro f hf
  simp only [Pool.start, List.mem_map] at hf
  obtain ⟨q, -, rfl⟩ := hf
  exact fun r hr => hr

/-- One step of any flight keeps the pool linked. -/
theorem Pool.step_linked {ε : Type} (x : Oracle ε) (start : Registry) (p : Pool ε) (i : Nat)
    (h : p.Linked x start) : (Pool.step x p i).Linked x start := by
  unfold Pool.step
  rcases hf : p.flights[i]? with _ | ⟨q, rest, tr⟩
  · exact h
  cases rest with
  | ret r => exact h
  | ask c k =>
    have hmem : (⟨q, .ask c k, tr⟩ : Flight) ∈ p.flights := List.getElem?_mem hf
    have hlt : i < p.flights.length := by
      rcases Nat.lt_or_ge i p.flights.length with hlt | hge
      · exact hlt
      · rw [List.getElem?_eq_none hge] at hf; cases hf
    refine ⟨?_, ?_⟩
    · intro f hfs
      show answeredFrom x start f.trace (World.oracle x p.world c).2.reg
      rcases List.mem_or_eq_of_mem_set hfs with hold | rfl
      · exact answeredFrom_mono x _ _ _ _ (World.oracle_subset x p.world c) (h.answered f hold)
      · exact answeredFrom_snoc x _ _ _ _ _ (h.answered _ hmem) (fun r hr => hr)
    · intro rec hrec
      change rec ∈ (World.oracle x p.world c).2.reg at hrec
      show rec ∈ start ∨ ∃ f ∈ p.flights.set i _, _
      have keep : rec ∈ p.world.reg → rec ∈ start ∨ ∃ f ∈ p.flights.set i
          { req := q, rest := k (World.oracle x p.world c).1,
            trace := tr ++ [⟨c, (World.oracle x p.world c).1⟩] },
          Event.mk (.AddMasterKeyAndTableMapping rec.wrappedMasterKey rec.table) none ∈
            f.trace := by
        intro hold
        rcases h.provenance rec hold with h0 | ⟨f, hfm, hev⟩
        · exact Or.inl h0
        · right
          rcases mem_set_or_eq p.flights i _
              { req := q, rest := k (World.oracle x p.world c).1,
                trace := tr ++ [⟨c, (World.oracle x p.world c).1⟩] } f hf hfm with h1 | rfl
          · exact ⟨f, h1, hev⟩
          · exact ⟨_, List.mem_set _ _ hlt _, List.mem_append_left _ hev⟩
      rw [(World.oracle_reg x p.world c).1] at hrec
      rcases Event.applyTo_cases p.world.reg ⟨c, (World.oracle x p.world c).1⟩ with
        hsame | ⟨wrapped, table, hev, hnew⟩
      · rw [hsame] at hrec
        exact keep hrec
      · rw [hnew] at hrec
        rcases List.mem_append.1 hrec with hold | hnewrec
        · exact keep hold
        · right
          simp only [List.mem_singleton] at hnewrec
          subst hnewrec
          refine ⟨_, List.mem_set _ _ hlt _, ?_⟩
          simp only [Registry.newRecord]
          rw [← hev]
          simp

/-- Every schedule keeps the pool linked. -/
theorem Pool.run_linked {ε : Type} (x : Oracle ε) (start : Registry) (p : Pool ε)
    (schedule : List Nat) (h : p.Linked x start) : (Pool.run x p schedule).Linked x start := by
  induction schedule generalizing p with
  | nil => exact h
  | cons i rest ih => exact ih _ (Pool.step_linked x start p i h)

/-! ## One flight among healthy collaborators -/

/-- The registry model never fails a lookup. -/
theorem Registry.lookup_no_error (reg : Registry) (table : String) :
    (reg.GetMkiFromTableName table).2 = none := by
  unfold Registry.GetMkiFromTableName
  split <;> rfl

/-- The registry model fetches every id it holds. -/
theorem Registry.fetch_no_error {reg : Registry} {rec : MasterKeyRecord} (hrec : rec ∈ reg) :
    (reg.GetWrappedMasterKeyFromMki rec.masterKeyId).2 = none := by
  unfold Registry.GetWrappedMasterKeyFromMki
  rcases hf : List.find? (fun r => decide (r.masterKeyId = rec.masterKeyId)) reg with _ | r
  · have := List.find?_eq_none.1 hf rec hrec
    simp at this
  · simp only [hf]

/-- The registry model rejects an insert only with a uniqueness violation, and only
when the table has a record. -/
theorem Registry.insert_error {reg : Registry} {wrapped table : String} {e : Error}
    (h : (reg.AddMasterKeyAndTableMapping wrapped table).1 = some e) :
    e = "unique violation" ∧ ∃ rec ∈ reg, rec.table = table := by
  unfold Registry.AddMasterKeyAndTableMapping at h
  by_cases hany : (reg.any fun r => decide (r.table = table)) = true
  · simp only [hany, ↓reduceIte, Option.some.injEq] at h
    refine ⟨h.symm, ?_⟩
    simpa using hany
  · simp [hany] at h

/-- A lookup through a connection without fault is the registry's answer. -/
theorem World.oracle_lookup {ε : Type} (x : Oracle ε) (w : World ε) (table : String)
    (hx : (x w.ext (.GetMkiFromTableName table)).1.2 = none) :
    (World.oracle x w (.GetMkiFromTableName table)).1 = w.reg.GetMkiFromTableName table := by
  simp only [World.oracle, hx]

/-- A fetch through a connection without fault is the registry's answer. -/
theorem World.oracle_fetch {ε : Type} (x : Oracle ε) (w : World ε) (mki : String)
    (hx : (x w.ext (.GetWrappedMasterKeyFromMki mki)).1.2 = none) :
    (World.oracle x w (.GetWrappedMasterKeyFromMki mki)).1 =
      w.reg.GetWrappedMasterKeyFromMki mki := by
  simp only [World.oracle, hx]

/-- An insert through a connection without fault is the registry's answer. -/
theorem World.oracle_insert {ε : Type} (x : Oracle ε) (w : World ε) (wrapped table : String)
    (hx : (x w.ext (.AddMasterKeyAndTableMapping wrapped table)).1 = none) :
    (World.oracle x w (.AddMasterKeyAndTableMapping wrapped table)).1 =
      (w.reg.AddMasterKeyAndTableMapping wrapped table).1 := by
  simp only [World.oracle, hx]

/-- A completed WrapKey flight among collaborators in working order.  When the token is
accepted, the root key source answers `rootKey`, the registry connection injects no fault
and the provider generates, wraps master keys under `rootKey` and wraps data keys without
error, the flight ended in one of three ways: its insert was rejected as a uniqueness
violation and it replied with the internal database error; it created the record of its
table from a master key the provider wrapped without error and replied with success; or it
found the record of its table and unwrapped its wrapped master key, replying with success
when that unwrap succeeded. -/
theorem healthy_flight {ε : Type} (x : Oracle ε) (lo hi : Registry) (q : WrapKeyRequest)
    (reply : Reply WrapKeyResponse) (tr : List Event) (rootKey : Bytes)
    (hauthn : ∀ e, (x e (.Authentication q.Token)).1 = true)
    (hauthz : ∀ e, (x e (.Authorization q.Token q.Table q.Column)).1 = true)
    (hroot : ∀ e, (x e .GetRootKey).1 = (rootKey, none))
    (hlookup : ∀ e table, (x e (.GetMkiFromTableName table)).1.2 = none)
    (hfetch : ∀ e mki, (x e (.GetWrappedMasterKeyFromMki mki)).1.2 = none)
    (hinsert : ∀ e wrapped table, (x e (.AddMasterKeyAndTableMapping wrapped table)).1 = none)
    (hgen : ∀ e, (x e .GenerateNewMasterKey).1.2 = none)
    (hwrapM : ∀ e masterKey, (x e (.WrapMasterKey masterKey rootKey)).1.2 = none)
    (hwrapD : ∀ e dataKey masterKey, (x e (.WrapDataKey dataKey masterKey)).1.2 = none)
    (hwf : hi.WellFormed)
    (ho : WrapOutcome q reply tr)
    (hw : ∀ ev ∈ tr, ev.witnessedBy hi)
    (ha : answeredFrom x lo tr hi) :
    (∃ wrapped,
        reply = .String StatusInternalServerError "internal database error" ∧
        Event.mk (.AddMasterKeyAndTableMapping wrapped q.Table) (some "unique violation") ∈ tr ∧
        (∃ rec ∈ hi, rec.table = q.Table) ∧
        ∀ w t, Event.mk (.AddMasterKeyAndTableMapping w t) none ∉ tr) ∨
    (∃ masterKey wrapped wrappedKey e1,
        reply = .JSON StatusOK { Code := 0, WrappedKey := wrappedKey } ∧
        (x e1 (.WrapMasterKey masterKey rootKey)).1 = (wrapped, none) ∧
        Registry.newRecord wrapped q.Table ∈ hi ∧
        Event.mk (.WrapDataKey q.PlainKey masterKey) (wrappedKey, none) ∈ tr ∧
        ∀ w t, Event.mk (.AddMasterKeyAndTableMapping w t) none ∈ tr → w = wrapped) ∨
    (∃ rec ∈ hi, rec.table = q.Table ∧
        (∀ w t, Event.mk (.AddMasterKeyAndTableMapping w t) none ∉ tr) ∧
        ∃ e5 masterKey err,
          (x e5 (.UnwrapMasterKey rec.wrappedMasterKey rootKey)).1 = (masterKey, err) ∧
          (err = none → ∃ wrappedKey,
            reply = .JSON StatusOK { Code := 0, WrappedKey := wrappedKey } ∧
            Event.mk (.WrapDataKey q.PlainKey masterKey) (wrappedKey, none) ∈ tr)) := by
  cases ho <;>
    simp only [authorized, List.cons_append, List.nil_append, answeredFrom] at ha
  case unauthenticated =>
    obtain ⟨w1, -, a1, -⟩ := ha
    have := hauthn w1.ext
    simp only [World.oracle] at a1
    rw [this] at a1
    cases a1
  case forbidden =>
    obtain ⟨w1, -, -, w2, -, a2, -⟩ := ha
    have := hauthz w2.ext
    simp only [World.oracle] at a2
    rw [this] at a2
    cases a2
  case kmsError rk e =>
    obtain ⟨w1, -, -, w2, -, -, w3, -, a3, -⟩ := ha
    simp only [World.oracle] at a3
    rw [hroot w3.ext] at a3
    cases a3
  case lookupError rk mki e =>
    obtain ⟨w1, -, -, w2, -, -, w3, -, -, w4, -, a4, -⟩ := ha
    rw [World.oracle_lookup x w4 _ (hlookup _ _)] at a4
    have := Registry.lookup_no_error w4.reg q.Table
    rw [a4] at this
    cases this
  case generateError rk mk e =>
    obtain ⟨w1, -, -, w2, -, -, w3, -, -, w4, -, -, w5, -, a5, -⟩ := ha
    simp only [World.oracle] at a5
    have := hgen w5.ext
    rw [a5] at this
    cases this
  case insertError rk mk wmk wrapErr e =>
    obtain ⟨w1, -, -, w2, -, -, w3, -, -, w4, -, -, w5, -, -, w6, -, -, w7, -, a7, hlast⟩ := ha
    rw [World.oracle_insert x w7 _ _ (hinsert _ _ _)] at a7
    obtain ⟨he, rec, hrec, ht⟩ := Registry.insert_error a7
    subst he
    refine Or.inl ⟨wmk, rfl, by simp, ⟨rec, hlast rec (World.oracle_subset x w7 _ rec hrec), ht⟩,
      by simp [authorized]⟩
  case createdWrapError rk mk wmk wrapErr wdk e =>
    obtain ⟨w1, -, -, w2, -, -, w3, -, -, w4, -, -, w5, -, -, w6, -, -, w7, -, -, w8, -, a8,
      -⟩ := ha
    simp only [World.oracle] at a8
    have := hwrapD w8.ext q.PlainKey mk
    rw [a8] at this
    cases this
  case createdSuccess rk mk wmk wrapErr wdk =>
    obtain ⟨w1, -, -, w2, -, -, w3, -, a3, w4, -, -, w5, -, -, w6, -, a6, -⟩ := ha
    simp only [World.oracle] at a3 a6
    rw [hroot w3.ext] at a3
    cases a3
    have hnone := hwrapM w6.ext mk
    rw [a6] at hnone
    change wrapErr = none at hnone
    subst hnone
    have hins := hw ⟨.AddMasterKeyAndTableMapping wmk q.Table, none⟩ (by simp [authorized])
    refine Or.inr (Or.inl ⟨mk, wmk, wdk, w6.ext, rfl, a6, hins, by simp [authorized], ?_⟩)
    intro w t hmem
    simp [authorized] at hmem
    exact hmem.1
  case fetchError rk mki hmki wmk e =>
    obtain ⟨w1, -, -, w2, -, -, w3, -, -, w4, -, a4, w5, s5, a5, -⟩ := ha
    rw [World.oracle_lookup x w4 _ (hlookup _ _)] at a4
    rw [World.oracle_fetch x w5 _ (hfetch _ _)] at a5
    obtain ⟨rec, hrec, -, hid⟩ := Registry.lookup_found _ _ _ a4 hmki
    have hrec5 : rec ∈ w5.reg := s5 rec (World.oracle_subset x w4 _ rec hrec)
    have := Registry.fetch_no_error hrec5
    rw [hid, a5] at this
    cases this
  case unwrapMasterError rk mki hmki wmk mk e =>
    obtain ⟨w1, -, -, w2, -, -, w3, -, a3, w4, -, -, w5, -, -, w6, -, a6, -⟩ := ha
    obtain ⟨rec, hrec, ht, hid⟩ := hw ⟨.GetMkiFromTableName q.Table, (mki, none)⟩
      (by simp [authorized]) hmki
    obtain ⟨rec2, hrec2, hid2, hw2⟩ :=
      hw ⟨.GetWrappedMasterKeyFromMki mki, (wmk, none)⟩ (by simp [authorized])
    have hsame := hwf.same_record hrec hrec2 (Or.inr (hid.trans hid2.symm))
    subst hsame
    subst hw2
    simp only [World.oracle] at a3 a6
    rw [hroot w3.ext] at a3
    cases a3
    exact Or.inr (Or.inr ⟨rec, hrec, ht, by simp [authorized], w6.ext, mk, some e, a6,
      fun h => by cases h⟩)
  case storedWrapError rk mki hmki wmk mk wdk e =>
    obtain ⟨w1, -, -, w2, -, -, w3, -, -, w4, -, -, w5, -, -, w6, -, -, w7, -, a7, -⟩ := ha
    simp only [World.oracle] at a7
    have := hwrapD w7.ext q.PlainKey mk
    rw [a7] at this
    cases this
  case storedSuccess rk mki hmki wmk mk wdk =>
    obtain ⟨w1, -, -, w2, -, -, w3, -, a3, w4, -, -, w5, -, -, w6, -, a6, -⟩ := ha
    obtain ⟨rec, hrec, ht, hid⟩ := hw ⟨.GetMkiFromTableName q.Table, (mki, none)⟩
      (by simp [authorized]) hmki
    obtain ⟨rec2, hrec2, hid2, hw2⟩ :=
      hw ⟨.GetWrappedMasterKeyFromMki mki, (wmk, none)⟩ (by simp [authorized])
    have hsame := hwf.same_record hrec hrec2 (Or.inr (hid.trans hid2.symm))
    subst hsame
    subst hw2
    simp only [World.oracle] at a3 a6
    rw [hroot w3.ext] at a3
    cases a3
    exact Or.inr (Or.inr ⟨rec, hrec, ht, by simp [authorized], w6.ext, mk, none, a6,
      fun _ => ⟨wdk, rfl, by simp [authorized]⟩⟩)
/-! ## Concurrent first use of a table: what the requests leave behind -/

/-- Counterexample to C10: two authorized WrapKey requests for the unregistered table
`orders` run concurrently among collaborators in working order, and both look the table up
before either inserts.  Exactly one record is left and the first request succeeds, but the
second, whose insert is rejected as a uniqueness violation, replies with the internal
database error: not all requests return the success response. -/
theorem concurrent_first_use_loser_fails :
    (Pool.run Outside.steady (Pool.start ⟨[], 0⟩ [ordersWrap, ordersWrap2])
        raceSchedule).replies =
      [some (.JSON StatusOK { Code := 0, WrappedKey := "k|123-45-6789" }),
       some (.String StatusInternalServerError "internal database error")] ∧
    (Pool.run Outside.steady (Pool.start ⟨[], 0⟩ [ordersWrap, ordersWrap2])
        raceSchedule).world.reg =
      [{ table := "orders", masterKeyId := "mki:orders", wrappedMasterKey := "root|k" }] ∧
    (Pool.run Outside.steady (Pool.start ⟨[], 0⟩ [ordersWrap, ordersWrap2])
        raceSchedule).flights.map (fun f => f.trace) =
      [[⟨.Authentication "T1", true⟩,
        ⟨.Authorization "T1" "orders" "ssn", true⟩,
        ⟨.GetRootKey, ("root", none)⟩,
        ⟨.GetMkiFromTableName "orders", ("", none)⟩,
        ⟨.GenerateNewMasterKey, ("k", none)⟩,
        ⟨.WrapMasterKey "k" "root", ("root|k", none)⟩,
        ⟨.AddMasterKeyAndTableMapping "root|k" "orders", none⟩,
        ⟨.WrapDataKey "123-45-6789" "k", ("k|123-45-6789", none)⟩],
       [⟨.Authentication "T1", true⟩,
        ⟨.Authorization "T1" "orders" "ssn", true⟩,
        ⟨.GetRootKey, ("root", none)⟩,
        ⟨.GetMkiFromTableName "orders", ("", none)⟩,
        ⟨.GenerateNewMasterKey, ("kk", none)⟩,
        ⟨.WrapMasterKey "kk" "root", ("root|kk", none)⟩,
        ⟨.AddMasterKeyAndTableMapping "root|kk" "orders", some "unique violation"⟩]] := by
  refine ⟨by decide, by decide, by decide⟩

/-- C10 (amended): for a table without a record and N >= 1 authorized WrapKey requests
for it, run concurrently to completion under any interleaving of their collaborator calls,
among collaborators in working order (the token is accepted, the root key source answers
one root key, the registry connection injects no fault, the provider generates and wraps
without error and its unwrap inverts its wrap under the root key): the registry is left
with exactly one master-key record for the table, the wrapped form of one master key; at
least one request returns the success response; and every request either returns the
success response with its data key wrapped under that one master key, or lost the race
(its insert was rejected as a uniqueness violation) and returns the internal database
error. -/
theorem concurrent_registration {ε : Type} (x : Oracle ε) (w : World ε) (table : String)
    (reqs : List WrapKeyRequest) (schedule : List Nat) (rootKey : Bytes)
    (hwf : w.reg.WellFormed)
    (hnew : ∀ rec ∈ w.reg, rec.table ≠ table)
    (hN : reqs ≠ [])
    (htable : ∀ q ∈ reqs, q.Table = table)
    (hauthn : ∀ q ∈ reqs, ∀ e, (x e (.Authentication q.Token)).1 = true)
    (hauthz : ∀ q ∈ reqs, ∀ e, (x e (.Authorization q.Token q.Table q.Column)).1 = true)
    (hroot : ∀ e, (x e .GetRootKey).1 = (rootKey, none))
    (hlookup : ∀ e t, (x e (.GetMkiFromTableName t)).1.2 = none)
    (hfetch : ∀ e mki, (x e (.GetWrappedMasterKeyFromMki mki)).1.2 = none)
    (hinsert : ∀ e wrapped t, (x e (.AddMasterKeyAndTableMapping wrapped t)).1 = none)
    (hgen : ∀ e, (x e .GenerateNewMasterKey).1.2 = none)
    (hwrapM : ∀ e masterKey, (x e (.WrapMasterKey masterKey rootKey)).1.2 = none)
    (hwrapD : ∀ e dataKey masterKey, (x e (.WrapDataKey dataKey masterKey)).1.2 = none)
    (hinv : ∀ e e2 masterKey wrapped,
      (x e (.WrapMasterKey masterKey rootKey)).1 = (wrapped, none) →
      (x e2 (.UnwrapMasterKey wrapped rootKey)).1 = (masterKey, none))
    (hdone : ∀ f ∈ (Pool.run x (Pool.start w reqs) schedule).flights, f.reply ≠ none) :
    (Pool.run x (Pool.start w reqs) schedule).flights.map Flight.req = reqs ∧
    ∃ rec masterKey,
      rec ∈ (Pool.run x (Pool.start w reqs) schedule).world.reg ∧
      rec.table = table ∧
      (∀ r ∈ (Pool.run x (Pool.start w reqs) schedule).world.reg, r.table = table → r = rec) ∧
      (∃ e, (x e (.WrapMasterKey masterKey rootKey)).1 = (rec.wrappedMasterKey, none)) ∧
      (∃ f ∈ (Pool.run x (Pool.start w reqs) schedule).flights, ∃ wrappedKey,
        f.reply = some (.JSON StatusOK { Code := 0, WrappedKey := wrappedKey })) ∧
      ∀ f ∈ (Pool.run x (Pool.start w reqs) schedule).flights,
        (∃ wrappedKey,
          f.reply = some (.JSON StatusOK { Code := 0, WrappedKey := wrappedKey }) ∧
          Event.mk (.WrapDataKey f.req.PlainKey masterKey) (wrappedKey, none) ∈ f.trace) ∨
        (f.reply = some (.String StatusInternalServerError "internal database error") ∧
          ∃ wrapped,
            Event.mk (.AddMasterKeyAndTableMapping wrapped table)
              (some "unique violation") ∈ f.trace) := by
  have hs := Pool.run_sound x _ schedule (Pool.start_sound w reqs hwf)
  have hl := Pool.run_linked x w.reg _ schedule (Pool.start_linked x w reqs)
  have hreqs : (Pool.run x (Pool.start w reqs) schedule).flights.map Flight.req = reqs := by
    rw [Pool.run_reqs]
    simp [Pool.start, Function.comp_def]
  generalize Pool.run x (Pool.start w reqs) schedule = final at hs hl hreqs hdone ⊢
  refine ⟨hreqs, ?_⟩
  have hmemreq : ∀ f ∈ final.flights, f.req ∈ reqs := by
    intro f hf
    rw [← hreqs]
    exact List.mem_map_of_mem _ hf
  -- what each completed flight went through
  have hflight : ∀ f ∈ final.flights, ∃ reply, f.reply = some reply ∧ _ :=
    fun f hf => by
      obtain ⟨reply, hr⟩ := Option.ne_none_iff_exists'.1 (hdone f hf)
      exact ⟨reply, hr, healthy_flight x w.reg final.world.reg f.req reply f.trace rootKey
        (hauthn _ (hmemreq f hf)) (hauthz _ (hmemreq f hf)) hroot hlookup hfetch hinsert hgen
        hwrapM hwrapD hs.wellFormed (hs.outcome hf hr) (hs.witnessed f hf) (hl.answered f hf)⟩
  -- some flight completed, so the table has a record
  have hrec0 : ∃ rec ∈ final.world.reg, rec.table = table := by
    have hne : final.flights ≠ [] := by
      intro h0
      rw [h0] at hreqs
      exact hN hreqs.symm
    obtain ⟨f0, hf0⟩ := List.exists_mem_of_ne_nil _ hne
    obtain ⟨reply, -, h⟩ := hflight f0 hf0
    rw [htable _ (hmemreq f0 hf0)] at h
    rcases h with ⟨_, -, -, hrec, -⟩ | ⟨_, wrapped, _, _, -, -, hrec, -⟩ | ⟨rec, hrec, ht, -⟩
    · exact hrec
    · exact ⟨_, hrec, rfl⟩
    · exact ⟨rec, hrec, ht⟩
  obtain ⟨rec, hrec, hrt⟩ := hrec0
  -- the record was inserted by a flight, which wrapped a master key for it and succeeded
  have hwinner : ∃ f ∈ final.flights, ∃ masterKey e wrappedKey,
      (x e (.WrapMasterKey masterKey rootKey)).1 = (rec.wrappedMasterKey, none) ∧
      f.reply = some (.JSON StatusOK { Code := 0, WrappedKey := wrappedKey }) := by
    rcases hl.provenance rec hrec with hold | ⟨f, hf, hev⟩
    · exact absurd hrt (hnew rec hold)
    · obtain ⟨reply, hr, h⟩ := hflight f hf
      rcases h with ⟨_, -, -, -, hno⟩ | ⟨mk, wrapped, wk, e1, hok, hx, -, -, honly⟩ |
        ⟨_, -, -, hno, -⟩
      · exact absurd hev (hno _ _)
      · have := honly _ _ hev
        subst this
        exact ⟨f, hf, mk, e1, wk, hx, by rw [hr, hok]⟩
      · exact absurd hev (hno _ _)
  obtain ⟨fw, hfw, masterKey, ew, wkw, hxw, hrw⟩ := hwinner
  have hK : ∀ e, (x e (.UnwrapMasterKey rec.wrappedMasterKey rootKey)).1 = (masterKey, none) :=
    fun e => hinv ew e masterKey _ hxw
  refine ⟨rec, masterKey, hrec, hrt, ?_, ⟨ew, hxw⟩, ⟨fw, hfw, wkw, hrw⟩, ?_⟩
  · intro r hr hrtab
    exact hs.wellFormed.same_record hr hrec (Or.inl (hrtab.trans hrt.symm))
  · intro f hf
    obtain ⟨reply, hr, h⟩ := hflight f hf
    have hft := htable _ (hmemreq f hf)
    rcases h with ⟨wrapped, hrep, hev, -, -⟩ | ⟨mk, wrapped, wk, e1, hok, hx, hnewrec, hev, -⟩ |
      ⟨rec2, hrec2, ht2, -, e5, mk, err, hx, hsucc⟩
    · right
      rw [hft] at hev
      exact ⟨by rw [hr, hrep], wrapped, hev⟩
    · left
      have hsame := hs.wellFormed.same_record hnewrec hrec
        (Or.inl (by simp only [Registry.newRecord]; exact hft.trans hrt.symm))
      have hwr : wrapped = rec.wrappedMasterKey := by rw [← hsame]; rfl
      subst hwr
      have h1 := hinv e1 ew mk _ hx
      rw [hK ew] at h1
      have hmk : masterKey = mk := (Prod.mk.inj h1).1
      subst hmk
      exact ⟨wk, by rw [hr, hok], hev⟩
    · left
      have hsame := hs.wellFormed.same_record hrec2 hrec (Or.inl (ht2.trans (hft.trans hrt.symm)))
      subst hsame
      rw [hK e5] at hx
      obtain ⟨hmk, herr⟩ := Prod.mk.inj hx
      subst hmk
      obtain ⟨wk, hok, hev⟩ := hsucc herr.symm
      exact ⟨wk, by rw [hr, hok], hev⟩

/-- Every flight of the race on `orders` has replied. -/
theorem race_completed :
    ∀ f ∈ (Pool.run Outside.steady (Pool.start ⟨[], 0⟩ [ordersWrap, ordersWrap2])
        raceSchedule).flights, f.reply ≠ none := by
  intro f hf h
  have hall : (Pool.run Outside.steady (Pool.start ⟨[], 0⟩ [ordersWrap, ordersWrap2])
      raceSchedule).replies =
      [some (.JSON StatusOK { Code := 0, WrappedKey := "k|123-45-6789" }),
       some (.String StatusInternalServerError "internal database error")] := by decide
  have hmem : f.reply ∈ (Pool.run Outside.steady
      (Pool.start ⟨[], 0⟩ [ordersWrap, ordersWrap2]) raceSchedule).replies :=
    List.mem_map_of_mem _ hf
  rw [hall, h] at hmem
  simp at hmem

/-- Witness for C10 (amended): the race of two requests for `orders` on the empty registry
among the steady collaborators, run to completion. -/
theorem concurrent_registration_witness :
    (∀ f ∈ (Pool.run Outside.steady (Pool.start ⟨[], 0⟩ [ordersWrap, ordersWrap2])
        raceSchedule).flights, f.reply ≠ none) ∧
    ∃ rec masterKey,
      rec ∈ (Pool.run Outside.steady (Pool.start ⟨[], 0⟩ [ordersWrap, ordersWrap2])
        raceSchedule).world.reg ∧
      rec.table = "orders" ∧
      (∀ r ∈ (Pool.run Outside.steady (Pool.start ⟨[], 0⟩ [ordersWrap, ordersWrap2])
        raceSchedule).world.reg, r.table = "orders" → r = rec) ∧
      (∃ e, (Outside.steady e (.WrapMasterKey masterKey "root")).1 =
        (rec.wrappedMasterKey, none)) ∧
      (∃ f ∈ (Pool.run Outside.steady (Pool.start ⟨[], 0⟩ [ordersWrap, ordersWrap2])
          raceSchedule).flights, ∃ wrappedKey,
        f.reply = some (.JSON StatusOK { Code := 0, WrappedKey := wrappedKey })) ∧
      ∀ f ∈ (Pool.run Outside.steady (Pool.start ⟨[], 0⟩ [ordersWrap, ordersWrap2])
          raceSchedule).flights,
        (∃ wrappedKey,
          f.reply = some (.JSON StatusOK { Code := 0, WrappedKey := wrappedKey }) ∧
          Event.mk (.WrapDataKey f.req.PlainKey masterKey) (wrappedKey, none) ∈ f.trace) ∨
        (f.reply = some (.String StatusInternalServerError "internal database error") ∧
          ∃ wrapped,
            Event.mk (.AddMasterKeyAndTableMapping wrapped "orders")
              (some "unique violation") ∈ f.trace) :=
  ⟨race_completed,
   (concurrent_registration Outside.steady ⟨[], 0⟩ "orders" [ordersWrap, ordersWrap2]
      raceSchedule "root"
      (by decide)
      (by intro rec hrec; cases hrec)
      (by decide)
      (by decide)
      (by
        intro q hq e
        simp only [List.mem_cons, List.mem_singleton, List.not_mem_nil, or_false] at hq
        rcases hq with rfl | rfl <;> rfl)
      (by
        intro q hq e
        simp only [List.mem_cons, List.mem_singleton, List.not_mem_nil, or_false] at hq
        rcases hq with rfl | rfl <;> rfl)
      (fun _ => rfl)
      (fun _ _ => rfl)
      (fun _ _ => rfl)
      (fun _ _ _ => rfl)
      (fun _ => rfl)
      (fun _ _ => rfl)
      (fun _ _ _ => rfl)
      (fun _ _ masterKey wrapped h => toyUnwrap_toyWrap "root" masterKey wrapped h)
      race_completed).2⟩
/-- The round trip when no error is ignored: a WrapKey that replied with success, and
whose wrap of a newly generated master key (if any) did not fail, is undone by the
following UnwrapKey of the returned wrapped key, provided that during the UnwrapKey the
token is still authorized, the registry answers, the root key source gives the answer it
gave before, and the provider's unwrap inverts its wrap under the same key (and repeats
its earlier answers). -/
theorem roundtrip_when_master_wrap_succeeded {ε : Type} (x : Oracle ε) (w w1 w2 : World ε)
    (req : WrapKeyRequest) (wrappedKey : String) (tr1 tr2 : List Event)
    (reply1 : Reply WrapKeyResponse) (reply2 : Reply UnwrapKeyResponse)
    (hwf : w.reg.WellFormed)
    (hrun1 : serveWrap (World.oracle x) w req = (reply1, w1, tr1))
    (hok : reply1 = .JSON StatusOK { Code := 0, WrappedKey := wrappedKey })
    (hrun2 : serveUnwrap (World.oracle x) w1
        { Token := req.Token, Table := req.Table, Column := req.Column,
          WrappedKey := wrappedKey } = (reply2, w2, tr2))
    (hwrap : ∀ masterKey rootKey wrapped e,
      Event.mk (.WrapMasterKey masterKey rootKey) (wrapped, some e) ∉ tr1)
    (hauthn : Event.mk (.Authentication req.Token) false ∉ tr2)
    (hauthz : Event.mk (.Authorization req.Token req.Table req.Column) false ∉ tr2)
    (hlookup : ∀ table mki e, Event.mk (.GetMkiFromTableName table) (mki, some e) ∉ tr2)
    (hfetch : ∀ mki wrapped e,
      Event.mk (.GetWrappedMasterKeyFromMki mki) (wrapped, some e) ∉ tr2)
    (hroot : ∀ rootKey e, Event.mk .GetRootKey (rootKey, e) ∈ tr2 →
      Event.mk .GetRootKey (rootKey, e) ∈ tr1)
    (hinvMaster : ∀ masterKey rootKey wrapped (a : Bytes × Option Error),
      Event.mk (.WrapMasterKey masterKey rootKey) (wrapped, none) ∈ tr1 →
      Event.mk (.UnwrapMasterKey wrapped rootKey) a ∈ tr2 → a = (masterKey, none))
    (hsameMaster : ∀ wrapped rootKey (a a2 : Bytes × Option Error),
      Event.mk (.UnwrapMasterKey wrapped rootKey) a ∈ tr1 →
      Event.mk (.UnwrapMasterKey wrapped rootKey) a2 ∈ tr2 → a2 = a)
    (hinvData : ∀ dataKey masterKey wrapped (a : Bytes × Option Error),
      Event.mk (.WrapDataKey dataKey masterKey) (wrapped, none) ∈ tr1 →
      Event.mk (.UnwrapDataKey wrapped masterKey) a ∈ tr2 → a = (dataKey, none)) :
    reply2 = .JSON StatusOK { Code := 0, PlainKey := req.PlainKey } := by
  have hreg1 := World.run_reg x (WrapKey (req, none)) w
  have ho1 := serveWrap_outcome (World.oracle x) w req
  have hwf1 := serve_wellFormed x w (.wrap req) hwf
  simp only [serve] at hwf1
  simp only [serveWrap] at hrun1 ho1 hwf1
  rw [hrun1] at hreg1 ho1 hwf1
  simp only at hreg1 ho1 hwf1
  have hreg2 := World.run_reg x
    (UnwrapKey (⟨req.Token, req.Table, req.Column, wrappedKey⟩, none)) w1
  have ho2 := serveUnwrap_outcome (World.oracle x) w1
    ⟨req.Token, req.Table, req.Column, wrappedKey⟩
  simp only [serveUnwrap] at hrun2 ho2
  rw [hrun2] at hreg2 ho2
  simp only at hreg2 ho2
  obtain ⟨hr1, ha1⟩ := hreg1
  obtain ⟨-, ha2⟩ := hreg2
  clear hrun1 hrun2
  cases ho1 <;> simp [StatusOK, StatusInternalServerError] at hok
  · -- the record was created by this request
    rename_i rootKey masterKey wrappedMasterKey wrapErr wrappedDataKey
    subst hok
    cases wrapErr with
    | some e => exact absurd (by simp [authorized]) (hwrap masterKey rootKey wrappedMasterKey e)
    | none =>
    simp only [authorized, List.cons_append, List.nil_append, List.foldl_cons, List.foldl_nil,
      Event.applyTo, agrees, Event.agreesWith, and_true, true_and] at hr1 ha1
    have hrec : Registry.newRecord wrappedMasterKey req.Table ∈ w1.reg := by
      rw [hr1]; simp
    have hl := Registry.lookup_registered hwf1 hrec
    simp only [Registry.newRecord] at hl
    cases ho2 <;>
      simp only [authorized, List.cons_append, List.nil_append, agrees, Event.agreesWith,
        Event.applyTo, and_true, true_and] at ha2
    case unauthenticated => exact absurd (by simp) hauthn
    case forbidden => exact absurd (by simp) hauthz
    case lookupError mki e => exact absurd (by simp [authorized]) (hlookup req.Table mki e)
    case notRegistered =>
      rw [hl] at ha2
      simp only [Prod.mk.injEq, and_true] at ha2
      exact absurd ha2 (Registry.newMki_ne_empty _)
    case fetchError mki hmki wmk2 e => exact absurd (by simp [authorized]) (hfetch mki wmk2 e)
    case kmsError mki hmki wmk2 rk2 e =>
      have := hroot rk2 (some e) (by simp [authorized])
      simp [authorized] at this
    case unwrapMasterError mki hmki wmk2 rk2 mk2 e =>
      obtain ⟨hl2, hf2⟩ := ha2
      rw [hl] at hl2
      simp only [Prod.mk.injEq, and_true] at hl2
      subst hl2
      obtain ⟨rec2, hrec2, hid2, hw2⟩ := Registry.fetch_found _ _ _ hf2
      have hsame := hwf1.same_record hrec hrec2 (Or.inr hid2.symm)
      subst hsame
      simp only [Registry.newRecord] at hw2
      subst hw2
      have hrk := hroot rk2 none (by simp [authorized])
      simp [authorized] at hrk
      subst hrk
      have := hinvMaster masterKey rk2 wrappedMasterKey (mk2, some e) (by simp [authorized])
        (by simp [authorized])
      simp at this
    case invalidWrappedKey mki hmki wmk2 rk2 mk2 d e =>
      obtain ⟨hl2, hf2⟩ := ha2
      rw [hl] at hl2
      simp only [Prod.mk.injEq, and_true] at hl2
      subst hl2
      obtain ⟨rec2, hrec2, hid2, hw2⟩ := Registry.fetch_found _ _ _ hf2
      have hsame := hwf1.same_record hrec hrec2 (Or.inr hid2.symm)
      subst hsame
      simp only [Registry.newRecord] at hw2
      subst hw2
      have hrk := hroot rk2 none (by simp [authorized])
      simp [authorized] at hrk
      subst hrk
      have hmk := hinvMaster masterKey rk2 wrappedMasterKey (mk2, none) (by simp [authorized])
        (by simp [authorized])
      simp only [Prod.mk.injEq, and_true] at hmk
      subst hmk
      have := hinvData req.PlainKey mk2 wrappedDataKey (d, some e) (by simp [authorized])
        (by simp [authorized])
      simp at this
    case success mki hmki wmk2 rk2 mk2 d =>
      obtain ⟨hl2, hf2⟩ := ha2
      rw [hl] at hl2
      simp only [Prod.mk.injEq, and_true] at hl2
      subst hl2
      obtain ⟨rec2, hrec2, hid2, hw2⟩ := Registry.fetch_found _ _ _ hf2
      have hsame := hwf1.same_record hrec hrec2 (Or.inr hid2.symm)
      subst hsame
      simp only [Registry.newRecord] at hw2
      subst hw2
      have hrk := hroot rk2 none (by simp [authorized])
      simp [authorized] at hrk
      subst hrk
      have hmk := hinvMaster masterKey rk2 wrappedMasterKey (mk2, none) (by simp [authorized])
        (by simp [authorized])
      simp only [Prod.mk.injEq, and_true] at hmk
      subst hmk
      have hd := hinvData req.PlainKey mk2 wrappedDataKey (d, none) (by simp [authorized])
        (by simp [authorized])
      simp only [Prod.mk.injEq, and_true] at hd
      rw [hd]
  · -- the record existed before this request
    rename_i rootKey mki hmki wrappedMasterKey masterKey wrappedDataKey
    subst hok
    simp only [authorized, List.cons_append, List.nil_append, List.foldl_cons, List.foldl_nil,
      Event.applyTo, agrees, Event.agreesWith, and_true, true_and] at hr1 ha1
    rw [hr1] at ha2
    cases ho2 <;>
      simp only [authorized, List.cons_append, List.nil_append, agrees, Event.agreesWith,
        Event.applyTo, and_true, true_and] at ha2
    case unauthenticated => exact absurd (by simp) hauthn
    case forbidden => exact absurd (by simp) hauthz
    case lookupError mki2 e => exact absurd (by simp [authorized]) (hlookup req.Table mki2 e)
    case notRegistered =>
      rw [ha1.1] at ha2
      simp only [Prod.mk.injEq, and_true] at ha2
      exact absurd ha2 hmki
    case fetchError mki2 hmki2 wmk2 e =>
      exact absurd (by simp [authorized]) (hfetch mki2 wmk2 e)
    case kmsError mki2 hmki2 wmk2 rk2 e =>
      have := hroot rk2 (some e) (by simp [authorized])
      simp [authorized] at this
    case unwrapMasterError mki2 hmki2 wmk2 rk2 mk2 e =>
      obtain ⟨hl2, hf2⟩ := ha2
      rw [ha1.1] at hl2
      simp only [Prod.mk.injEq, and_true] at hl2
      subst hl2
      rw [ha1.2] at hf2
      simp only [Prod.mk.injEq, and_true] at hf2
      subst hf2
      have hrk := hroot rk2 none (by simp [authorized])
      simp [authorized] at hrk
      subst hrk
      have := hsameMaster wrappedMasterKey rk2 (masterKey, none) (mk2, some e) (by simp [authorized])
        (by simp [authorized])
      simp at this
    case invalidWrappedKey mki2 hmki2 wmk2 rk2 mk2 d e =>
      obtain ⟨hl2, hf2⟩ := ha2
      rw [ha1.1] at hl2
      simp only [Prod.mk.injEq, and_true] at hl2
      subst hl2
      rw [ha1.2] at hf2
      simp only [Prod.mk.injEq, and_true] at hf2
      subst hf2
      have hrk := hroot rk2 none (by simp [authorized])
      simp [authorized] at hrk
      subst hrk
      have hmk := hsameMaster wrappedMasterKey rk2 (masterKey, none) (mk2, none) (by simp [authorized])
        (by simp [authorized])
      simp only [Prod.mk.injEq, and_true] at hmk
      subst hmk
      have := hinvData req.PlainKey mk2 wrappedDataKey (d, some e) (by simp [authorized])
        (by simp [authorized])
      simp at this
    case success mki2 hmki2 wmk2 rk2 mk2 d =>
      obtain ⟨hl2, hf2⟩ := ha2
      rw [ha1.1] at hl2
      simp only [Prod.mk.injEq, and_true] at hl2
      subst hl2
      rw [ha1.2] at hf2
      simp only [Prod.mk.injEq, and_true] at hf2
      subst hf2
      have hrk := hroot rk2 none (by simp [authorized])
      simp [authorized] at hrk
      subst hrk
      have hmk := hsameMaster wrappedMasterKey rk2 (masterKey, none) (mk2, none) (by simp [authorized])
        (by simp [authorized])
      simp only [Prod.mk.injEq, and_true] at hmk
      subst hmk
      have hd := hinvData req.PlainKey mk2 wrappedDataKey (d, none) (by simp [authorized])
        (by simp [authorized])
      simp only [Prod.mk.injEq, and_true] at hd
      rw [hd]

/-- The trace of the scenario WrapKey on the empty registry. -/
theorem ordersWrap_trace :
    (serveWrap (World.oracle Outside.oracle) ⟨[], Outside.healthy⟩ ordersWrap).2.2 =
      [⟨.Authentication "T1", true⟩,
       ⟨.Authorization "T1" "orders" "ssn", true⟩,
       ⟨.GetRootKey, ("root", none)⟩,
       ⟨.GetMkiFromTableName "orders", ("", none)⟩,
       ⟨.GenerateNewMasterKey, ("k", none)⟩,
       ⟨.WrapMasterKey "k" "root", ("root|k", none)⟩,
       ⟨.AddMasterKeyAndTableMapping "root|k" "orders", none⟩,
       ⟨.WrapDataKey "123-45-6789" "k", ("k|123-45-6789", none)⟩] := by
  decide

/-- The trace of the scenario UnwrapKey after the scenario WrapKey. -/
theorem ordersUnwrap_trace :
    (serveUnwrap (World.oracle Outside.oracle)
        (serveWrap (World.oracle Outside.oracle) ⟨[], Outside.healthy⟩ ordersWrap).2.1
        (ordersUnwrap "k|123-45-6789")).2.2 =
      [⟨.Authentication "T1", true⟩,
       ⟨.Authorization "T1" "orders" "ssn", true⟩,
       ⟨.GetMkiFromTableName "orders", ("mki:orders", none)⟩,
       ⟨.GetWrappedMasterKeyFromMki "mki:orders", ("root|k", none)⟩,
       ⟨.GetRootKey, ("root", none)⟩,
       ⟨.UnwrapMasterKey "root|k" "root", ("k", none)⟩,
       ⟨.UnwrapDataKey "k|123-45-6789" "k", ("123-45-6789", none)⟩] := by
  decide

/-- The scenario of the spec: wrapping `123-45-6789` for `(orders, ssn)` on the empty
registry and unwrapping the returned key gives `123-45-6789` back. -/
theorem roundtrip_when_master_wrap_succeeded_witness :
    (serveUnwrap (World.oracle Outside.oracle)
        (serveWrap (World.oracle Outside.oracle) ⟨[], Outside.healthy⟩ ordersWrap).2.1
        (ordersUnwrap "k|123-45-6789")).1 =
      .JSON StatusOK { Code := 0, PlainKey := "123-45-6789" } :=
  roundtrip_when_master_wrap_succeeded Outside.oracle ⟨[], Outside.healthy⟩
    (serveWrap (World.oracle Outside.oracle) ⟨[], Outside.healthy⟩ ordersWrap).2.1
    (serveUnwrap (World.oracle Outside.oracle)
      (serveWrap (World.oracle Outside.oracle) ⟨[], Outside.healthy⟩ ordersWrap).2.1
      (ordersUnwrap "k|123-45-6789")).2.1
    ordersWrap "k|123-45-6789"
    (serveWrap (World.oracle Outside.oracle) ⟨[], Outside.healthy⟩ ordersWrap).2.2
    (serveUnwrap (World.oracle Outside.oracle)
      (serveWrap (World.oracle Outside.oracle) ⟨[], Outside.healthy⟩ ordersWrap).2.1
      (ordersUnwrap "k|123-45-6789")).2.2
    (serveWrap (World.oracle Outside.oracle) ⟨[], Outside.healthy⟩ ordersWrap).1
    (serveUnwrap (World.oracle Outside.oracle)
      (serveWrap (World.oracle Outside.oracle) ⟨[], Outside.healthy⟩ ordersWrap).2.1
      (ordersUnwrap "k|123-45-6789")).1
    (by decide) rfl (by decide) rfl
    (by rw [ordersWrap_trace]; simp)
    (by rw [ordersUnwrap_trace]; simp [ordersWrap])
    (by rw [ordersUnwrap_trace]; simp [ordersWrap])
    (by rw [ordersUnwrap_trace]; simp)
    (by rw [ordersUnwrap_trace]; simp)
    (by rw [ordersUnwrap_trace, ordersWrap_trace]; simp)
    (by
      rw [ordersUnwrap_trace, ordersWrap_trace]
      rintro mk rk wr ⟨a, e⟩ h1 h2
      simp at h1 h2
      simp [h1, h2])
    (by
      rw [ordersUnwrap_trace, ordersWrap_trace]
      rintro wr rk ⟨a, e⟩ ⟨a2, e2⟩ h1 h2
      simp at h1)
    (by
      rw [ordersUnwrap_trace, ordersWrap_trace]
      rintro d mk wr ⟨a, e⟩ h1 h2
      simp at h1 h2
      simp [h1, h2])

end Keystore
